import Mathlib

/-!
The dtap configuration: validation and defaults.

A shallow embedding of `config.go` of the dtap relay and the properties of
its validators and default-resolving getters, followed by the address with
prefix length of `net.go`, of which only the test is among the sources and
which is modelled from the specification.

Modelling conventions.

* A Go `string` is a Lean `String`.  The source compares single bytes of a
  string with ASCII bytes only (`o.Tag[0] == '.'`), splits on `"."` and
  searches for `":"`; on UTF-8 text these byte operations coincide with the
  same operations on characters, because every byte of a multi-byte
  encoding is at least `0x80`.
* `uint`, `uint8`, `uint16` fields are natural numbers; no arithmetic is done
  on them, so no wrap-around can occur.  `int` is `Int`.
* A `*ValidationError` is an `Option ValidationError`; `nil` is `none`.
  Methods with a pointer receiver that mutate it return the new value.
* The slices of `Config` hold pointers to entries; they are modelled as lists
  of the entries themselves (no `nil` entry).
-/

set_option autoImplicit false

namespace dtap

/-! ## Errors -/

/-- An error made by `errors.New(msg)`; `Error()` returns `msg`. -/
structure BasicError where
  msg : String
  deriving DecidableEq, Repr

/-- Translation of `errors.New`. -/
def errors_New (msg : String) : BasicError := { msg := msg }

/-- Translation of `type ValidationError struct`. -/
structure ValidationError where
  configType : String
  no : Int
  errors : List BasicError
  deriving DecidableEq, Repr

/-- Translation of `NewValidationError`: the string and the integer take
their zero values. -/
def NewValidationError : ValidationError :=
  { configType := "", no := 0, errors := [] }

/-- Translation of `(*ValidationError).Add`. -/
def ValidationError.Add (e : ValidationError) (err : BasicError) : ValidationError :=
  { e with errors := e.errors ++ [err] }

/-- Translation of `(*ValidationError).Err`. -/
def ValidationError.Err (e : ValidationError) : Option ValidationError :=
  if e.errors.length > 0 then some e else none

/-- A value of the interface type `error` as it occurs in the result of
`Config.Validate`: made by `errors.New`, or a `*ValidationError`. -/
inductive GoError where
  | basic (e : BasicError)
  | validation (e : ValidationError)
  deriving DecidableEq, Repr

/-! ## Entry configurations -/

/-- Translation of `type InputUnixSocketConfig struct`. -/
structure InputUnixSocketConfig where
  Path : String
  User : String
  deriving DecidableEq, Repr

/-- Translation of `(*InputUnixSocketConfig).Validate`. -/
def InputUnixSocketConfig.Validate (i : InputUnixSocketConfig) : Option ValidationError :=
  let err := NewValidationError
  let err := if i.Path = "" then err.Add (errors_New "Path must not be empty") else err
  err.Err

/-- Translation of `type InputFileConfig struct`. -/
structure InputFileConfig where
  Path : String
  deriving DecidableEq, Repr

/-- Translation of `(*InputFileConfig).Validate`. -/
def InputFileConfig.Validate (i : InputFileConfig) : Option ValidationError :=
  let err := NewValidationError
  let err := if i.Path = "" then err.Add (errors_New "Path must not be empty") else err
  err.Err

/-- Translation of `type InputTailConfig struct`. -/
structure InputTailConfig where
  Path : String
  deriving DecidableEq, Repr

/-- Translation of `(*InputTailConfig).Validate`. -/
def InputTailConfig.Validate (i : InputTailConfig) : Option ValidationError :=
  let err := NewValidationError
  let err := if i.Path = "" then err.Add (errors_New "Path must not be empty") else err
  err.Err

/-- Translation of `type InputTCPSocketConfig struct`; `Port` is a `uint16`. -/
structure InputTCPSocketConfig where
  Address : String
  Port : Nat
  deriving DecidableEq, Repr

/-- Translation of `(*InputTCPSocketConfig).Validate`. -/
def InputTCPSocketConfig.Validate (i : InputTCPSocketConfig) : Option ValidationError :=
  let err := NewValidationError
  let err := if i.Address = "" then err.Add (errors_New "Host must not be empty") else err
  err.Err

/-- Translation of `type OutputUnixSocketConfig struct`. -/
structure OutputUnixSocketConfig where
  Path : String
  BufferSize : Nat
  deriving DecidableEq, Repr

/-- Translation of `(*OutputUnixSocketConfig).Validate`. -/
def OutputUnixSocketConfig.Validate (o : OutputUnixSocketConfig) : Option ValidationError :=
  let err := NewValidationError
  let err := if o.Path = "" then err.Add (errors_New "Path must not be empty") else err
  err.Err

/-- Translation of `type OutputFileConfig struct`. -/
structure OutputFileConfig where
  Path : String
  User : String
  BufferSize : Nat
  deriving DecidableEq, Repr

/-- Translation of `(*OutputFileConfig).Validate`. -/
def OutputFileConfig.Validate (o : OutputFileConfig) : Option ValidationError :=
  let err := NewValidationError
  let err := if o.Path = "" then err.Add (errors_New "Path must not be empty") else err
  err.Err

/-- Translation of `type OutputTCPSocketConfig struct`; `Port` is a `uint16`. -/
structure OutputTCPSocketConfig where
  Host : String
  Port : Nat
  BufferSize : Nat
  deriving DecidableEq, Repr

/-- Translation of `(*OutputTCPSocketConfig).Validate`. -/
def OutputTCPSocketConfig.Validate (o : OutputTCPSocketConfig) : Option ValidationError :=
  let err := NewValidationError
  let err := if o.Host = "" then err.Add (errors_New "Host must not be empty") else err
  err.Err

/-- Translation of `type OutputFluentConfig struct`; `Port` is a `uint16`,
`IPv4Mask` and `IPv6Mask` are `uint8`. -/
structure OutputFluentConfig where
  Host : String
  Tag : String
  Port : Nat
  IPv4Mask : Nat
  IPv6Mask : Nat
  BufferSize : Nat
  deriving DecidableEq, Repr

/-! ### The tag check of the forward-protocol output -/

/-- The character class `[a-z0-9_]`. -/
def isTagChar (c : Char) : Bool :=
  ('a' ≤ c && c ≤ 'z') || ('0' ≤ c && c ≤ '9') || c = '_'

/-- The compiled expression `^[a-z0-9_]+$` applied with `MatchString`: the
whole text is one or more characters of the class. -/
def labelRegexp_MatchString (label : String) : Bool :=
  !label.data.isEmpty && label.data.all isTagChar

/-- Splitting of a character list at every occurrence of `sep`; the result
has one piece more than there are occurrences. -/
def splitChars (sep : Char) : List Char → List (List Char)
  | [] => [[]]
  | c :: cs =>
    if c = sep then [] :: splitChars sep cs
    else
      match splitChars sep cs with
      | [] => [[c]]
      | piece :: pieces => (c :: piece) :: pieces

/-- Translation of `strings.Split(s, ".")`. -/
def strings_Split_dot (s : String) : List String :=
  (splitChars '.' s.data).map String.mk

/-- The loop over the labels in `(*OutputFluentConfig).Validate`: at the
first label for which `r.MatchString(label)` holds, one error is added and
the loop is left. -/
def OutputFluentConfig.labelLoop : List String → ValidationError → ValidationError
  | [], err => err
  | label :: rest, err =>
    if labelRegexp_MatchString label then
      err.Add (errors_New
        "Tag characters must only include lower-case alphabets, digits underscore and dot")
    else OutputFluentConfig.labelLoop rest err

/-- Translation of `(*OutputFluentConfig).Validate`. -/
def OutputFluentConfig.Validate (o : OutputFluentConfig) : Option ValidationError :=
  let err := NewValidationError
  let err := if o.Host = "" then err.Add (errors_New "Host must not be empty") else err
  let err :=
    if o.Tag = "" then err.Add (errors_New "Tag must not be empty")
    else
      let labels := strings_Split_dot o.Tag
      let err := OutputFluentConfig.labelLoop labels err
      let err :=
        if o.Tag.data.head? = some '.' then err.Add (errors_New "First part of a tag is empty")
        else err
      let err :=
        if o.Tag.data.getLast? = some '.' then err.Add (errors_New "Last part of a tag is empty")
        else err
      let err :=
        if o.IPv4Mask ≠ 0 then
          if o.IPv4Mask > 32 then err.Add (errors_New "IPv4Mask must include range 0 to 32")
          else err
        else err
      let err :=
        if o.IPv6Mask ≠ 0 then
          if o.IPv6Mask > 128 then err.Add (errors_New "IPv4Mask must include range 0 to 128")
          else err
        else err
      err
  err.Err

/-! ## The whole configuration -/

/-- Translation of `type Config struct`. -/
structure Config where
  InputMsgBuffer : Nat
  InputUnix : List InputUnixSocketConfig
  InputFile : List InputFileConfig
  InputTail : List InputTailConfig
  InputTCP : List InputTCPSocketConfig
  OutputUnix : List OutputUnixSocketConfig
  OutputFile : List OutputFileConfig
  OutputTCP : List OutputTCPSocketConfig
  OutputFluent : List OutputFluentConfig
  deriving DecidableEq, Repr

/-- One `for n, i := range list` loop of `Config.Validate`, started at index
`n`: an entry whose `Validate` is not `nil` gets its `configType` and `no`
set and is appended to `errs`. -/
def rangeValidate {α : Type} (configType : String) (validate : α → Option ValidationError) :
    Nat → List α → List GoError → List GoError
  | _, [], errs => errs
  | n, i :: rest, errs =>
    match validate i with
    | some err =>
      rangeValidate configType validate (n + 1) rest
        (errs ++ [GoError.validation { err with configType := configType, no := Int.ofNat n }])
    | none => rangeValidate configType validate (n + 1) rest errs

/-- Translation of `(*Config).Validate`.  The source has no loop over
`c.InputTail`. -/
def Config.Validate (c : Config) : List GoError :=
  let errs : List GoError := []
  let errs :=
    if c.InputMsgBuffer < 128 then
      errs ++ [GoError.basic (errors_New "InputMsgBuffer must not small 128")]
    else errs
  let errs := rangeValidate "InputUnix" InputUnixSocketConfig.Validate 0 c.InputUnix errs
  let errs := rangeValidate "InputFile" InputFileConfig.Validate 0 c.InputFile errs
  let errs := rangeValidate "InputTCP" InputTCPSocketConfig.Validate 0 c.InputTCP errs
  let errs := rangeValidate "OutputUnix" OutputUnixSocketConfig.Validate 0 c.OutputUnix errs
  let errs := rangeValidate "OutputFile" OutputFileConfig.Validate 0 c.OutputFile errs
  let errs := rangeValidate "OutputTCP" OutputTCPSocketConfig.Validate 0 c.OutputTCP errs
  let errs := rangeValidate "OutputFluent" OutputFluentConfig.Validate 0 c.OutputFluent errs
  errs

/-! ## Getters that resolve defaults -/

/-- Translation of `strconv.Itoa`: the decimal text of an `int`. -/
def strconv_Itoa (i : Int) : String := toString i

/-- Translation of `strings.Contains(s, ":")`. -/
def strings_Contains_colon (s : String) : Bool := s.data.contains ':'

/-- Translation of `(*InputTCPSocketConfig).GetNet`. -/
def InputTCPSocketConfig.GetNet (i : InputTCPSocketConfig) : String :=
  let address := i.Address
  let port := i.Port
  let address := if address = "" then "0.0.0.0" else address
  let port := if port = 0 then 10053 else port
  let address := if strings_Contains_colon address then "[" ++ address ++ "]" else address
  address ++ ":" ++ strconv_Itoa (Int.ofNat port)

/-- Translation of `(*OutputUnixSocketConfig).GetBufferSize`.  The package
constant `OutputBufferSize` is declared outside `config.go`; it is a
parameter here. -/
def OutputUnixSocketConfig.GetBufferSize (OutputBufferSize : Nat)
    (o : OutputUnixSocketConfig) : Nat :=
  if o.BufferSize = 0 then OutputBufferSize else o.BufferSize

/-- Translation of `(*OutputFileConfig).GetBufferSize`, with `OutputBufferSize`
a parameter. -/
def OutputFileConfig.GetBufferSize (OutputBufferSize : Nat) (o : OutputFileConfig) : Nat :=
  if o.BufferSize = 0 then OutputBufferSize else o.BufferSize

/-- Translation of `(*OutputTCPSocketConfig).GetBufferSize`, with
`OutputBufferSize` a parameter. -/
def OutputTCPSocketConfig.GetBufferSize (OutputBufferSize : Nat)
    (o : OutputTCPSocketConfig) : Nat :=
  if o.BufferSize = 0 then OutputBufferSize else o.BufferSize

/-- Translation of `(*OutputFluentConfig).GetBufferSize`, with
`OutputBufferSize` a parameter. -/
def OutputFluentConfig.GetBufferSize (OutputBufferSize : Nat) (o : OutputFluentConfig) : Nat :=
  if o.BufferSize = 0 then OutputBufferSize else o.BufferSize

/-- Translation of `(*OutputFluentConfig).GetIPv4Mask`. -/
def OutputFluentConfig.GetIPv4Mask (o : OutputFluentConfig) : Int :=
  if o.IPv4Mask = 0 then 24 else Int.ofNat o.IPv4Mask

/-- Translation of `(*OutputFluentConfig).GetIPv6Mask`.  The source tests
`o.IPv4Mask == 0`. -/
def OutputFluentConfig.GetIPv6Mask (o : OutputFluentConfig) : Int :=
  if o.IPv4Mask = 0 then 48 else Int.ofNat o.IPv6Mask

/-- Translation of `(*OutputTCPSocketConfig).GetAddress`. -/
def OutputTCPSocketConfig.GetAddress (o : OutputTCPSocketConfig) : String :=
  let host := o.Host
  let port := o.Port
  let host := if host = "" then "localhost" else host
  let port := if port = 0 then 10053 else port
  host ++ ":" ++ strconv_Itoa (Int.ofNat port)

/-- Translation of `(*OutputFluentConfig).GetPort`. -/
def OutputFluentConfig.GetPort (o : OutputFluentConfig) : Int :=
  if o.Port = 0 then 24224 else Int.ofNat o.Port

/-- Translation of `(*ValidationError).Error`; the line is
`fmt.Sprintf("%s[%d]: %s\n", e.configType, e.no, err.Error())`. -/
def ValidationError.Error (e : ValidationError) : String :=
  e.errors.foldl
    (fun msg err => msg ++ (e.configType ++ "[" ++ strconv_Itoa e.no ++ "]: " ++ err.msg ++ "\n"))
    ""

/-! ## The address with prefix length -/

/-- Modelled from the spec: the text form of an address in Go's `net`
package, on which `net.go` (not among the sources, only its test is) relies
and which the specification writes `<ip>`.  `IPString` prints an address that
is present, `ParseIP` reads one, and `bits` is the largest prefix length of
the family of the address, 32 or 128. -/
structure IPText (IP : Type) where
  IPString : IP → String
  ParseIP : String → Option IP
  bits : IP → Nat

/-- Modelled from the spec: `type Net struct` of `net.go`, which is not among
the sources: an address, `none` when it is absent, and a prefix length. -/
structure Net (IP : Type) where
  IP : Option IP
  PrefixLength : Nat
  deriving DecidableEq, Repr

/-- Modelled from the spec: `(*Net).String` of `net.go`, which is not among
the sources: the canonical text `<ip>/<prefixlen>`, and the sentinel `<nil>`
for an absent address. -/
def Net.GoString {IP : Type} (lib : IPText IP) (n : Net IP) : String :=
  match n.IP with
  | none => "<nil>"
  | some ip => lib.IPString ip ++ "/" ++ strconv_Itoa (Int.ofNat n.PrefixLength)

/-- Modelled from the spec: `(*Net).MarshalJSON` of `net.go`, which is not
among the sources: the canonical text between double quotes. -/
def Net.MarshalJSON {IP : Type} (lib : IPText IP) (n : Net IP) : String :=
  "\"" ++ n.GoString lib ++ "\""

/-- Reading of decimal digits after the value `acc` of the digits read so
far; `none` when a character is not a digit. -/
def parseDecimalFrom : List Char → Nat → Option Nat
  | [], acc => some acc
  | c :: cs, acc =>
    if c.isDigit then parseDecimalFrom cs (acc * 10 + (c.toNat - '0'.toNat)) else none

/-- Reading of a non-empty decimal text. -/
def parseDecimal (cs : List Char) : Option Nat :=
  if cs.isEmpty then none else parseDecimalFrom cs 0

/-- Modelled from the spec: the reading of the canonical text of a `Net`, the
inverse of `(*Net).String`: the sentinel `<nil>` gives the absent address, and
`<ip>/<prefixlen>` gives the address with the prefix length, which must lie in
the range of the family of the address. -/
def Net.Parse {IP : Type} (lib : IPText IP) (s : String) : Option (Net IP) :=
  if s = "<nil>" then some { IP := none, PrefixLength := 0 }
  else
    match splitChars '/' s.data with
    | [ipText, lengthText] =>
      match lib.ParseIP (String.mk ipText), parseDecimal lengthText with
      | some ip, some prefixLength =>
        if prefixLength ≤ lib.bits ip then some { IP := some ip, PrefixLength := prefixLength }
        else none
      | _, _ => none
    | _ => none

/-- The text between the double quotes of a JSON string without escapes. -/
def unquote : List Char → Option (List Char)
  | '"' :: rest => if rest.getLast? = some '"' then some rest.dropLast else none
  | _ => none

/-- Modelled from the spec: `(*Net).UnmarshalJSON` of `net.go`, which is not
among the sources, applied to a fresh `Net`: the value read from the quoted
canonical text, `none` when the call returns an error. -/
def Net.UnmarshalJSON {IP : Type} (lib : IPText IP) (bs : String) : Option (Net IP) :=
  match unquote bs.data with
  | some text => Net.Parse lib (String.mk text)
  | none => none

/-! ### The address text of Go's `net` package -/

/-- An address: IPv4 with its four octets, or IPv6 with its eight groups of
16 bits. -/
inductive IPAddr where
  | v4 (octets : List Nat)
  | v6 (groups : List Nat)
  deriving DecidableEq, Repr

/-- The texts joined with the separator between them. -/
def joinWith (sep : Char) : List (List Char) → List Char
  | [] => []
  | [piece] => piece
  | piece :: next :: rest => piece ++ sep :: joinWith sep (next :: rest)

/-- The number of zero groups at the head of a list. -/
def zeroRun : List Nat → Nat
  | 0 :: groups => zeroRun groups + 1
  | _ => 0

/-- Start and length of the first longest run of zero groups, the positions
counted from `i`; the length is 0 when no group is zero. -/
def longestZeroRun : List Nat → Nat → Nat × Nat
  | [], _ => (0, 0)
  | g :: groups, i =>
    let rest := longestZeroRun groups (i + 1)
    if zeroRun (g :: groups) ≥ rest.2 ∧ zeroRun (g :: groups) > 0 then
      (i, zeroRun (g :: groups))
    else rest

/-- The text of an address as `net.IP.String` prints it: the dotted decimal
octets of IPv4; for IPv6 the groups in lower-case hexadecimal without leading
zeros, separated by colons, with the first longest run of two or more zero
groups written `::`. -/
def IPAddr.IPString : IPAddr → String
  | IPAddr.v4 octets => String.mk (joinWith '.' (octets.map fun o => Nat.toDigits 10 o))
  | IPAddr.v6 groups =>
    let run := longestZeroRun groups 0
    if run.2 ≥ 2 then
      String.mk (joinWith ':' ((groups.take run.1).map fun g => Nat.toDigits 16 g)
        ++ [':', ':']
        ++ joinWith ':' ((groups.drop (run.1 + run.2)).map fun g => Nat.toDigits 16 g))
    else String.mk (joinWith ':' (groups.map fun g => Nat.toDigits 16 g))

/-- The value of a hexadecimal digit. -/
def hexValue (c : Char) : Option Nat :=
  if c.isDigit then some (c.toNat - '0'.toNat)
  else if 'a' ≤ c ∧ c ≤ 'f' then some (c.toNat - 'a'.toNat + 10)
  else if 'A' ≤ c ∧ c ≤ 'F' then some (c.toNat - 'A'.toNat + 10)
  else none

/-- Reading of hexadecimal digits after the value `acc` of the digits read so
far. -/
def parseHexFrom : List Char → Nat → Option Nat
  | [], acc => some acc
  | c :: cs, acc =>
    match hexValue c with
    | some v => parseHexFrom cs (acc * 16 + v)
    | none => none

/-- Reading of one group of an IPv6 text: one to four hexadecimal digits. -/
def parseGroup (cs : List Char) : Option Nat :=
  if cs.isEmpty ∨ cs.length > 4 then none else parseHexFrom cs 0

/-- Reading of colon-separated groups; the empty text has no group. -/
def parseGroups (cs : List Char) : Option (List Nat) :=
  if cs.isEmpty then some [] else (splitChars ':' cs).mapM parseGroup

/-- The texts before and after the first `::`. -/
def splitDoubleColon : List Char → Option (List Char × List Char)
  | [] => none
  | c :: rest =>
    if c = ':' ∧ rest.head? = some ':' then some ([], rest.tail)
    else (splitDoubleColon rest).map fun r => (c :: r.1, r.2)

/-- Reading of one octet of an IPv4 text: a decimal number below 256. -/
def parseOctet (cs : List Char) : Option Nat :=
  match parseDecimal cs with
  | some o => if o < 256 ∧ cs.length ≤ 3 then some o else none
  | none => none

/-- Reading of a dotted decimal IPv4 text. -/
def parseIPv4 (cs : List Char) : Option IPAddr :=
  match (splitChars '.' cs).mapM parseOctet with
  | some octets => if octets.length = 4 then some (IPAddr.v4 octets) else none
  | none => none

/-- Reading of an IPv6 text of hexadecimal groups with at most one `::`. -/
def parseIPv6 (cs : List Char) : Option IPAddr :=
  match splitDoubleColon cs with
  | some (before, after) =>
    match parseGroups before, parseGroups after with
    | some left, some right =>
      if left.length + right.length ≤ 7 then
        some (IPAddr.v6 (left ++ List.replicate (8 - (left.length + right.length)) 0 ++ right))
      else none
    | _, _ => none
  | none =>
    match parseGroups cs with
    | some groups => if groups.length = 8 then some (IPAddr.v6 groups) else none
    | none => none

/-- The reading of an address as `net.ParseIP` does it: the first dot or colon
of the text decides between IPv4 and IPv6. -/
def IPAddr.ParseIP (s : String) : Option IPAddr :=
  match s.data.find? (fun c => c = '.' ∨ c = ':') with
  | some c => if c = '.' then parseIPv4 s.data else parseIPv6 s.data
  | none => none

/-- The largest prefix length of the family of an address. -/
def IPAddr.bits : IPAddr → Nat
  | IPAddr.v4 _ => 32
  | IPAddr.v6 _ => 128

/-- An address as Go holds it: four octets below 256, or eight groups below
65536 that do not form an IPv4-mapped address, which Go treats as the IPv4
address. -/
def IPAddr.valid : IPAddr → Bool
  | IPAddr.v4 octets => octets.length = 4 && octets.all fun o => o < 256
  | IPAddr.v6 groups =>
    groups.length = 8 && (groups.all fun g => g < 65536)
      && !(groups.take 6 == [0, 0, 0, 0, 0, 0xffff])

/-- The address text of `IPAddr` as an instance of `IPText`. -/
def goIPText : IPText IPAddr :=
  { IPString := IPAddr.IPString, ParseIP := IPAddr.ParseIP, bits := IPAddr.bits }

/-! ## Reference definitions taken from the specification -/

/-- Matching of the specification's tag pattern
`^[a-z0-9_]+(\.[a-z0-9_]+)*$` on the rest of a text; `inLabel` tells whether
the label being read already has a character. -/
def tagPatternFrom : Bool → List Char → Bool
  | inLabel, [] => inLabel
  | inLabel, c :: cs =>
    if isTagChar c then tagPatternFrom true cs
    else if c = '.' ∧ inLabel = true then tagPatternFrom false cs
    else false

/-- The text matches `^[a-z0-9_]+(\.[a-z0-9_]+)*$`. -/
def matchesTagPattern (tag : String) : Bool := tagPatternFrom false tag.data

/-- The errors of one list as the specification words them: one
`ValidationError` for each entry rejected by `validate`, in index order,
carrying the entry's own errors, the name of the list and the zero-based index
of the entry. -/
def reportedErrors {α : Type} (configType : String) (validate : α → Option ValidationError)
    (xs : List α) : List GoError :=
  xs.enum.filterMap fun p =>
    (validate p.2).map fun err =>
      GoError.validation { err with configType := configType, no := Int.ofNat p.1 }

/-- The number of entries of a list rejected by `validate`. -/
def countRejected {α : Type} (validate : α → Option ValidationError) (xs : List α) : Nat :=
  (xs.filter fun x => (validate x).isSome).length

/-- The value of `NewValidationError()` after one call of `Add` for each
error of `errs`, in that order. -/
def addAll (errs : List BasicError) : ValidationError :=
  errs.foldl ValidationError.Add NewValidationError

/-- The line of one error as the specification words it,
`<configType>[<no>]: <message>` followed by a newline. -/
def errorLine (configType : String) (no : Int) (message : String) : String :=
  configType ++ "[" ++ strconv_Itoa no ++ "]: " ++ message ++ "\n"

/-- The concatenation of texts, in their order. -/
def concatLines : List String → String
  | [] => ""
  | line :: rest => line ++ concatLines rest

/-- The number of lines of a text in which every line ends with a newline. -/
def lineCount (s : String) : Nat := s.data.count '\n'

/-! ## Lemmas on the validation loops -/

theorem ValidationError.Err_eq_none_iff (e : ValidationError) :
    e.Err = none ↔ e.errors = [] := by
  unfold ValidationError.Err
  cases h : e.errors <;> simp

theorem ValidationError.Err_ne_none_iff (e : ValidationError) :
    e.Err ≠ none ↔ 0 < e.errors.length := by
  rw [Ne, ValidationError.Err_eq_none_iff]
  cases h : e.errors <;> simp

theorem ValidationError.length_Add (e : ValidationError) (err : BasicError) :
    (e.Add err).errors.length = e.errors.length + 1 := by
  simp [ValidationError.Add]

theorem rangeValidate_append {α : Type} (configType : String)
    (validate : α → Option ValidationError) (xs : List α) :
    ∀ (n : Nat) (errs : List GoError),
      rangeValidate configType validate n xs errs
        = errs ++ rangeValidate configType validate n xs [] := by
  induction xs with
  | nil => intro n errs; simp [rangeValidate]
  | cons x rest ih =>
    intro n errs
    cases h : validate x with
    | none => simp only [rangeValidate, h]; exact ih (n + 1) errs
    | some e =>
      simp only [rangeValidate, h]
      rw [ih (n + 1) (errs ++ _), ih (n + 1) ([] ++ _)]
      simp

theorem rangeValidate_nil_eq_nil_iff {α : Type} (configType : String)
    (validate : α → Option ValidationError) (xs : List α) :
    ∀ n : Nat, rangeValidate configType validate n xs [] = []
      ↔ ∀ x ∈ xs, validate x = none := by
  induction xs with
  | nil => intro n; simp [rangeValidate]
  | cons x rest ih =>
    intro n
    cases h : validate x with
    | none => simp only [rangeValidate, h]; rw [ih (n + 1)]; simp [h]
    | some e =>
      simp only [rangeValidate, h]
      rw [rangeValidate_append]
      simp [h]

theorem rangeValidate_eq_nil_iff {α : Type} (configType : String)
    (validate : α → Option ValidationError) (xs : List α) (n : Nat) (errs : List GoError) :
    rangeValidate configType validate n xs errs = []
      ↔ errs = [] ∧ ∀ x ∈ xs, validate x = none := by
  rw [rangeValidate_append, List.append_eq_nil, rangeValidate_nil_eq_nil_iff]

/-- The result of `Config.Validate` is empty exactly when the buffer size is
at least 128 and no entry of the seven lists it walks through is rejected by
its own `Validate`. -/
theorem Config.Validate_eq_nil_iff (c : Config) :
    c.Validate = [] ↔
      128 ≤ c.InputMsgBuffer ∧
      (∀ x ∈ c.InputUnix, x.Validate = none) ∧
      (∀ x ∈ c.InputFile, x.Validate = none) ∧
      (∀ x ∈ c.InputTCP, x.Validate = none) ∧
      (∀ x ∈ c.OutputUnix, x.Validate = none) ∧
      (∀ x ∈ c.OutputFile, x.Validate = none) ∧
      (∀ x ∈ c.OutputTCP, x.Validate = none) ∧
      (∀ x ∈ c.OutputFluent, x.Validate = none) := by
  unfold Config.Validate
  simp only [rangeValidate_eq_nil_iff]
  by_cases h : c.InputMsgBuffer < 128
  · simp [h]
  · simp [h]
    constructor
    · rintro ⟨⟨⟨⟨⟨⟨h1, h2⟩, h3⟩, h4⟩, h5⟩, h6⟩, h7⟩
      exact ⟨by omega, h1, h2, h3, h4, h5, h6, h7⟩
    · rintro ⟨_, h1, h2, h3, h4, h5, h6, h7⟩
      exact ⟨⟨⟨⟨⟨⟨h1, h2⟩, h3⟩, h4⟩, h5⟩, h6⟩, h7⟩

/-! ## The aggregate validator -/

/-- C1 (defect of the code): `Config.Validate` has no loop over `InputTail`.
The entry `InputTailConfig` with an empty `Path` is rejected by its own
`Validate`, yet the configuration with `InputMsgBuffer = 128` holding only
that entry gets the empty error list. -/
theorem Config.Validate_misses_InputTail :
    InputTailConfig.Validate { Path := "" } ≠ none ∧
    Config.Validate
      { InputMsgBuffer := 128, InputUnix := [], InputFile := [],
        InputTail := [{ Path := "" }], InputTCP := [], OutputUnix := [], OutputFile := [],
        OutputTCP := [], OutputFluent := [] } = [] := by
  decide

/-- The part of C1 the code does: an entry of one of the seven lists walked
through by `Config.Validate` that fails its own `Validate` makes the result
non-empty. -/
theorem Config.Validate_ne_nil_of_rejected_entry (c : Config)
    (h : (∃ x ∈ c.InputUnix, x.Validate ≠ none) ∨ (∃ x ∈ c.InputFile, x.Validate ≠ none) ∨
      (∃ x ∈ c.InputTCP, x.Validate ≠ none) ∨ (∃ x ∈ c.OutputUnix, x.Validate ≠ none) ∨
      (∃ x ∈ c.OutputFile, x.Validate ≠ none) ∨ (∃ x ∈ c.OutputTCP, x.Validate ≠ none) ∨
      (∃ x ∈ c.OutputFluent, x.Validate ≠ none)) :
    c.Validate ≠ [] := by
  intro hnil
  obtain ⟨_, h1, h2, h3, h4, h5, h6, h7⟩ := (Config.Validate_eq_nil_iff c).mp hnil
  rcases h with ⟨x, hx, hv⟩ | ⟨x, hx, hv⟩ | ⟨x, hx, hv⟩ | ⟨x, hx, hv⟩ | ⟨x, hx, hv⟩ |
    ⟨x, hx, hv⟩ | ⟨x, hx, hv⟩
  · exact hv (h1 x hx)
  · exact hv (h2 x hx)
  · exact hv (h3 x hx)
  · exact hv (h4 x hx)
  · exact hv (h5 x hx)
  · exact hv (h6 x hx)
  · exact hv (h7 x hx)

/-- C2: `Config.Validate` enforces the floor 128 of `InputMsgBuffer`.  When
all input and output lists are empty the result is empty if and only if
`InputMsgBuffer >= 128`; and whenever `InputMsgBuffer < 128` the result is
non-empty, whatever the lists hold. -/
theorem Config.Validate_InputMsgBuffer_floor (c : Config) :
    ((c.InputUnix = [] ∧ c.InputFile = [] ∧ c.InputTail = [] ∧ c.InputTCP = [] ∧
        c.OutputUnix = [] ∧ c.OutputFile = [] ∧ c.OutputTCP = [] ∧ c.OutputFluent = []) →
      (c.Validate = [] ↔ 128 ≤ c.InputMsgBuffer)) ∧
    (c.InputMsgBuffer < 128 → c.Validate ≠ []) := by
  constructor
  · rintro ⟨h1, h2, -, h3, h4, h5, h6, h7⟩
    rw [Config.Validate_eq_nil_iff, h1, h2, h3, h4, h5, h6, h7]
    simp
  · intro hlt hnil
    have := ((Config.Validate_eq_nil_iff c).mp hnil).1
    omega

/-- C2 at the configuration with `InputMsgBuffer = 50` and all lists empty:
both hypotheses hold there, and the result is non-empty. -/
theorem Config.Validate_InputMsgBuffer_floor_witness :
    ((Config.Validate
        { InputMsgBuffer := 50, InputUnix := [], InputFile := [], InputTail := [],
          InputTCP := [], OutputUnix := [], OutputFile := [], OutputTCP := [],
          OutputFluent := [] } = []) ↔ 128 ≤ 50) ∧
    Config.Validate
      { InputMsgBuffer := 50, InputUnix := [], InputFile := [], InputTail := [],
        InputTCP := [], OutputUnix := [], OutputFile := [], OutputTCP := [],
        OutputFluent := [] } ≠ [] :=
  ⟨(Config.Validate_InputMsgBuffer_floor
      { InputMsgBuffer := 50, InputUnix := [], InputFile := [], InputTail := [],
        InputTCP := [], OutputUnix := [], OutputFile := [], OutputTCP := [],
        OutputFluent := [] }).1 ⟨rfl, rfl, rfl, rfl, rfl, rfl, rfl, rfl⟩,
    (Config.Validate_InputMsgBuffer_floor
      { InputMsgBuffer := 50, InputUnix := [], InputFile := [], InputTail := [],
        InputTCP := [], OutputUnix := [], OutputFile := [], OutputTCP := [],
        OutputFluent := [] }).2 (by decide)⟩

/-! ## The forward-protocol output -/

theorem OutputFluentConfig.labelLoop_length_le (labels : List String) (err : ValidationError) :
    err.errors.length ≤ (OutputFluentConfig.labelLoop labels err).errors.length := by
  induction labels with
  | nil => simp [OutputFluentConfig.labelLoop]
  | cons label rest ih =>
    unfold OutputFluentConfig.labelLoop
    split
    · rw [ValidationError.length_Add]; omega
    · exact ih

theorem OutputFluentConfig.labelLoop_eq (labels : List String) (err : ValidationError) :
    OutputFluentConfig.labelLoop labels err =
      if labels.any labelRegexp_MatchString then
        err.Add (errors_New
          "Tag characters must only include lower-case alphabets, digits underscore and dot")
      else err := by
  induction labels with
  | nil => simp [OutputFluentConfig.labelLoop]
  | cons label rest ih =>
    unfold OutputFluentConfig.labelLoop
    by_cases hl : labelRegexp_MatchString label = true
    · simp [hl]
    · simp only [hl, if_false, ih]
      simp [hl]

/-- The configurations accepted by `OutputFluentConfig.Validate`: host and tag
are not empty, no label of the tag matches `^[a-z0-9_]+$`, the tag neither
starts nor ends with a dot, and the masks are at most 32 and 128. -/
theorem OutputFluentConfig.Validate_eq_none_iff (o : OutputFluentConfig) :
    o.Validate = none ↔
      o.Host ≠ "" ∧ o.Tag ≠ "" ∧
      (∀ label ∈ strings_Split_dot o.Tag, labelRegexp_MatchString label = false) ∧
      o.Tag.data.head? ≠ some '.' ∧ o.Tag.data.getLast? ≠ some '.' ∧
      o.IPv4Mask ≤ 32 ∧ o.IPv6Mask ≤ 128 := by
  unfold OutputFluentConfig.Validate
  rw [ValidationError.Err_eq_none_iff, ← List.length_eq_zero]
  by_cases ht : o.Tag = ""
  · simp only [ht, if_true]
    split_ifs <;> simp [ValidationError.length_Add]
  · simp only [ht, if_false]
    have h0 : (if o.Host = "" then NewValidationError.Add (errors_New "Host must not be empty")
        else NewValidationError).errors.length = if o.Host = "" then 1 else 0 := by
      split_ifs <;> rfl
    generalize (if o.Host = "" then NewValidationError.Add (errors_New "Host must not be empty")
      else NewValidationError) = e0 at h0 ⊢
    have h1 : (OutputFluentConfig.labelLoop (strings_Split_dot o.Tag) e0).errors.length
        = e0.errors.length +
          if (∀ label ∈ strings_Split_dot o.Tag, labelRegexp_MatchString label = false)
          then 0 else 1 := by
      rw [OutputFluentConfig.labelLoop_eq]
      by_cases hl : (strings_Split_dot o.Tag).any labelRegexp_MatchString = true
      · have hl2 : ¬ ∀ label ∈ strings_Split_dot o.Tag, labelRegexp_MatchString label = false := by
          simpa using hl
        rw [if_pos hl, if_neg hl2, ValidationError.length_Add]
      · have hl2 : ∀ label ∈ strings_Split_dot o.Tag, labelRegexp_MatchString label = false := by
          simpa using hl
        rw [if_neg hl, if_pos hl2]; rfl
    generalize OutputFluentConfig.labelLoop (strings_Split_dot o.Tag) e0 = e1 at h1 ⊢
    split_ifs at h0 h1 ⊢ <;> (try simp only [ValidationError.length_Add]) <;>
      (constructor
       · intro h
         refine ⟨?_, ?_, ?_, ?_, ?_, ?_, ?_⟩ <;> first | assumption | omega
       · rintro ⟨_, _, _, _, _, _, _⟩
         first | contradiction | omega)

theorem isTagChar_dot : isTagChar '.' = false := by decide

/-- Sample values of the specification's tag pattern. -/
theorem matchesTagPattern_samples :
    matchesTagPattern "a.b_c" = true ∧ matchesTagPattern "dnstap.query_09" = true ∧
    matchesTagPattern "" = false ∧ matchesTagPattern "a..b" = false ∧
    matchesTagPattern ".a.b" = false ∧ matchesTagPattern "a.b." = false ∧
    matchesTagPattern "A" = false ∧ matchesTagPattern "a-b" = false := by
  decide

/-- A text that matches the tag pattern is split at its dots into pieces the
first of which consists of characters of the class, and is not empty when no
character of the label was read before. -/
theorem tagPatternFrom_first_piece (cs : List Char) :
    ∀ inLabel : Bool, tagPatternFrom inLabel cs = true →
      ∃ piece pieces, splitChars '.' cs = piece :: pieces ∧
        piece.all isTagChar = true ∧ (inLabel = false → piece ≠ []) := by
  induction cs with
  | nil =>
    intro inLabel h
    refine ⟨[], [], rfl, rfl, ?_⟩
    intro hb
    simp [tagPatternFrom, hb] at h
  | cons c rest ih =>
    intro inLabel h
    unfold tagPatternFrom at h
    by_cases hc : isTagChar c = true
    · rw [if_pos hc] at h
      obtain ⟨piece, pieces, hsplit, hall, -⟩ := ih true h
      have hne : c ≠ '.' := by
        intro heq
        rw [heq, isTagChar_dot] at hc
        exact Bool.false_ne_true hc
      refine ⟨c :: piece, pieces, ?_, ?_, ?_⟩
      · simp [splitChars, hne, hsplit]
      · simp [hc, hall]
      · intro _; simp
    · rw [if_neg hc] at h
      by_cases hd : c = '.' ∧ inLabel = true
      · refine ⟨[], splitChars '.' rest, ?_, rfl, ?_⟩
        · simp [splitChars, hd.1]
        · intro hb; rw [hd.2] at hb; exact absurd hb (by decide)
      · rw [if_neg hd] at h
        exact absurd h (by decide)

/-- The extent of the inverted label test: every configuration whose tag
matches the specification's pattern is rejected. -/
theorem OutputFluentConfig.Validate_ne_none_of_matchesTagPattern (o : OutputFluentConfig)
    (h : matchesTagPattern o.Tag = true) : o.Validate ≠ none := by
  intro hnone
  obtain ⟨-, -, hlabels, -⟩ := (OutputFluentConfig.Validate_eq_none_iff o).mp hnone
  obtain ⟨piece, pieces, hsplit, hall, hne⟩ := tagPatternFrom_first_piece o.Tag.data false h
  have hmem : String.mk piece ∈ strings_Split_dot o.Tag := by
    simp [strings_Split_dot, hsplit]
  have hfalse := hlabels _ hmem
  have hpiece : piece ≠ [] := hne rfl
  have htrue : labelRegexp_MatchString (String.mk piece) = true := by
    cases piece with
    | nil => exact absurd rfl hpiece
    | cons a as => simpa [labelRegexp_MatchString] using hall
  rw [htrue] at hfalse
  exact absurd hfalse (by decide)

/-- C5: `OutputFluentConfig.Validate` rejects the empty tag and every tag
that starts or ends with a dot, whatever the other fields are. -/
theorem OutputFluentConfig.Validate_rejects_empty_or_edge_dot (o : OutputFluentConfig)
    (h : o.Tag = "" ∨ ['.'] <+: o.Tag.data ∨ ['.'] <:+ o.Tag.data) :
    o.Validate ≠ none := by
  have hhead : o.Tag ≠ "" → ['.'] <+: o.Tag.data → o.Tag.data.head? = some '.' := by
    rintro - ⟨t, ht⟩
    rw [← ht]; rfl
  have hlast : o.Tag ≠ "" → ['.'] <:+ o.Tag.data → o.Tag.data.getLast? = some '.' := by
    rintro - ⟨t, ht⟩
    rw [← ht]; simp
  unfold OutputFluentConfig.Validate
  rw [ValidationError.Err_ne_none_iff]
  by_cases ht : o.Tag = ""
  · simp only [ht, if_true]
    split_ifs <;> simp [ValidationError.length_Add]
  · have hcase : o.Tag.data.head? = some '.' ∨ o.Tag.data.getLast? = some '.' := by
      rcases h with h | h | h
      · exact absurd h ht
      · exact Or.inl (hhead ht h)
      · exact Or.inr (hlast ht h)
    have hloop := OutputFluentConfig.labelLoop_length_le (strings_Split_dot o.Tag)
    simp only [ht, if_false]
    generalize (if o.Host = "" then NewValidationError.Add (errors_New "Host must not be empty")
      else NewValidationError) = e0
    have hloop := hloop e0
    generalize OutputFluentConfig.labelLoop (strings_Split_dot o.Tag) e0 = e1 at hloop ⊢
    rcases hcase with hc | hc
    · split_ifs <;> simp only [ValidationError.length_Add] <;> omega
    · split_ifs <;> simp only [ValidationError.length_Add] <;> omega

/-- C5 at `Tag = ".a.b"` and at `Tag = ""`, each with a non-empty host and
no masks: the first tag starts with a dot, the second is empty, and both
configurations are rejected. -/
theorem OutputFluentConfig.Validate_rejects_empty_or_edge_dot_witness :
    ['.'] <+: (".a.b" : String).data ∧
    OutputFluentConfig.Validate
      { Host := "localhost", Tag := ".a.b", Port := 0, IPv4Mask := 0, IPv6Mask := 0,
        BufferSize := 0 } ≠ none ∧
    OutputFluentConfig.Validate
      { Host := "localhost", Tag := "", Port := 0, IPv4Mask := 0, IPv6Mask := 0,
        BufferSize := 0 } ≠ none :=
  ⟨⟨['a', '.', 'b'], rfl⟩,
    OutputFluentConfig.Validate_rejects_empty_or_edge_dot
      { Host := "localhost", Tag := ".a.b", Port := 0, IPv4Mask := 0, IPv6Mask := 0,
        BufferSize := 0 } (Or.inr (Or.inl ⟨['a', '.', 'b'], rfl⟩)),
    OutputFluentConfig.Validate_rejects_empty_or_edge_dot
      { Host := "localhost", Tag := "", Port := 0, IPv4Mask := 0, IPv6Mask := 0,
        BufferSize := 0 } (Or.inl rfl)⟩

/-- C8: `OutputFluentConfig.Validate` rejects a configuration with
`IPv4Mask > 32` or `IPv6Mask > 128`, whatever `Host` and `Tag` are: with the
empty tag the mask checks are not run and the empty tag itself is the
error. -/
theorem OutputFluentConfig.Validate_rejects_mask_out_of_range (o : OutputFluentConfig)
    (h : 32 < o.IPv4Mask ∨ 128 < o.IPv6Mask) :
    o.Validate ≠ none := by
  unfold OutputFluentConfig.Validate
  rw [ValidationError.Err_ne_none_iff]
  by_cases ht : o.Tag = ""
  · simp only [ht, if_true]
    split_ifs <;> simp [ValidationError.length_Add]
  · simp only [ht, if_false]
    generalize (if o.Host = "" then NewValidationError.Add (errors_New "Host must not be empty")
      else NewValidationError) = e0
    generalize OutputFluentConfig.labelLoop (strings_Split_dot o.Tag) e0 = e1
    rcases h with hc | hc
    · split_ifs <;> (try simp only [ValidationError.length_Add]) <;> omega
    · split_ifs <;> (try simp only [ValidationError.length_Add]) <;> omega

/-- C8 at `IPv4Mask = 33` with host `localhost` and tag `A`, where the mask
is the only error, and at `IPv6Mask = 129` with the empty tag. -/
theorem OutputFluentConfig.Validate_rejects_mask_out_of_range_witness :
    OutputFluentConfig.Validate
      { Host := "localhost", Tag := "A", Port := 0, IPv4Mask := 33, IPv6Mask := 0,
        BufferSize := 0 } ≠ none ∧
    OutputFluentConfig.Validate
      { Host := "localhost", Tag := "", Port := 0, IPv4Mask := 0, IPv6Mask := 129,
        BufferSize := 0 } ≠ none :=
  ⟨OutputFluentConfig.Validate_rejects_mask_out_of_range
      { Host := "localhost", Tag := "A", Port := 0, IPv4Mask := 33, IPv6Mask := 0,
        BufferSize := 0 } (Or.inl (by decide)),
    OutputFluentConfig.Validate_rejects_mask_out_of_range
      { Host := "localhost", Tag := "", Port := 0, IPv4Mask := 0, IPv6Mask := 129,
        BufferSize := 0 } (Or.inr (by decide))⟩

/-- C3 (defect of the code): the test of the label loop is inverted, an error
is added when a label matches `^[a-z0-9_]+$`.  The tag `a.b_c` matches the
specification's pattern, host and masks are in order, and `Validate` returns
an error. -/
theorem OutputFluentConfig.Validate_rejects_well_formed_tag :
    matchesTagPattern "a.b_c" = true ∧
    OutputFluentConfig.Validate
      { Host := "localhost", Tag := "a.b_c", Port := 0, IPv4Mask := 0, IPv6Mask := 0,
        BufferSize := 0 }
      = some { configType := "", no := 0, errors := [errors_New
          "Tag characters must only include lower-case alphabets, digits underscore and dot"] } := by
  decide

/-- C4 (defect of the code): by the same inverted test, a tag none of whose
labels matches `^[a-z0-9_]+$` passes.  The tag `A` does not match the
specification's pattern and `Validate` returns `nil`. -/
theorem OutputFluentConfig.Validate_accepts_malformed_tag :
    matchesTagPattern "A" = false ∧
    OutputFluentConfig.Validate
      { Host := "localhost", Tag := "A", Port := 0, IPv4Mask := 0, IPv6Mask := 0,
        BufferSize := 0 } = none := by
  decide

/-! ## Mask lengths -/

/-- C6 (defect of the code): `GetIPv6Mask` tests `IPv4Mask`, not `IPv6Mask`.
With `IPv4Mask = 0` the configured `IPv6Mask = 64` is replaced by 48, and with
`IPv4Mask = 24` the unset `IPv6Mask = 0` is returned as 0. -/
theorem OutputFluentConfig.GetIPv6Mask_tests_IPv4Mask :
    OutputFluentConfig.GetIPv6Mask
      { Host := "localhost", Tag := "a", Port := 0, IPv4Mask := 0, IPv6Mask := 64,
        BufferSize := 0 } = 48 ∧
    OutputFluentConfig.GetIPv6Mask
      { Host := "localhost", Tag := "a", Port := 0, IPv4Mask := 24, IPv6Mask := 0,
        BufferSize := 0 } = 0 := by
  decide

/-- C7: `GetIPv4Mask` is 24 when `IPv4Mask` is 0 and `IPv4Mask` otherwise, and
does not depend on `IPv6Mask`. -/
theorem OutputFluentConfig.GetIPv4Mask_default (o : OutputFluentConfig) :
    o.GetIPv4Mask = (if o.IPv4Mask = 0 then 24 else (o.IPv4Mask : Int)) ∧
    ∀ m : Nat, OutputFluentConfig.GetIPv4Mask { o with IPv6Mask := m } = o.GetIPv4Mask := by
  constructor
  · unfold OutputFluentConfig.GetIPv4Mask
    split_ifs <;> rfl
  · intro m
    rfl

/-! ## Buffer sizes -/

/-- C9: each of the four output configurations resolves `BufferSize = 0` to
`OutputBufferSize` and returns any other `BufferSize` unchanged; so with
`OutputBufferSize > 0` no `GetBufferSize` returns 0. -/
theorem GetBufferSize_default (OutputBufferSize : Nat) (u : OutputUnixSocketConfig)
    (f : OutputFileConfig) (t : OutputTCPSocketConfig) (fl : OutputFluentConfig) :
    (u.GetBufferSize OutputBufferSize
        = if u.BufferSize = 0 then OutputBufferSize else u.BufferSize) ∧
    (f.GetBufferSize OutputBufferSize
        = if f.BufferSize = 0 then OutputBufferSize else f.BufferSize) ∧
    (t.GetBufferSize OutputBufferSize
        = if t.BufferSize = 0 then OutputBufferSize else t.BufferSize) ∧
    (fl.GetBufferSize OutputBufferSize
        = if fl.BufferSize = 0 then OutputBufferSize else fl.BufferSize) ∧
    (0 < OutputBufferSize →
      u.GetBufferSize OutputBufferSize ≠ 0 ∧ f.GetBufferSize OutputBufferSize ≠ 0 ∧
      t.GetBufferSize OutputBufferSize ≠ 0 ∧ fl.GetBufferSize OutputBufferSize ≠ 0) := by
  refine ⟨rfl, rfl, rfl, rfl, fun hpos => ?_⟩
  unfold OutputUnixSocketConfig.GetBufferSize OutputFileConfig.GetBufferSize
    OutputTCPSocketConfig.GetBufferSize OutputFluentConfig.GetBufferSize
  refine ⟨?_, ?_, ?_, ?_⟩ <;> split_ifs <;> omega

/-- C9 at `OutputBufferSize = 10000` and four configurations with
`BufferSize = 0`: none of the results is 0. -/
theorem GetBufferSize_default_witness :
    OutputUnixSocketConfig.GetBufferSize 10000 { Path := "/tmp/a.sock", BufferSize := 0 } ≠ 0 ∧
    OutputFileConfig.GetBufferSize 10000 { Path := "/tmp/a", User := "", BufferSize := 0 } ≠ 0 ∧
    OutputTCPSocketConfig.GetBufferSize 10000 { Host := "h", Port := 0, BufferSize := 0 } ≠ 0 ∧
    OutputFluentConfig.GetBufferSize 10000
      { Host := "h", Tag := "a", Port := 0, IPv4Mask := 0, IPv6Mask := 0, BufferSize := 0 } ≠ 0 :=
  (GetBufferSize_default 10000 { Path := "/tmp/a.sock", BufferSize := 0 }
    { Path := "/tmp/a", User := "", BufferSize := 0 } { Host := "h", Port := 0, BufferSize := 0 }
    { Host := "h", Tag := "a", Port := 0, IPv4Mask := 0, IPv6Mask := 0, BufferSize := 0 }).2.2.2.2
    (by decide)

/-! ## Listen address -/

theorem strconv_Itoa_ofNat (n : Nat) : strconv_Itoa (Int.ofNat n) = Nat.repr n := rfl

/-- C10: `GetNet` is host, colon, decimal port, where the port is 10053 when
`Port` is 0 and `Port` otherwise, and the host is `0.0.0.0` when `Address` is
empty, `Address` in square brackets when it contains a colon, and `Address`
otherwise. -/
theorem InputTCPSocketConfig.GetNet_eq (i : InputTCPSocketConfig) :
    i.GetNet =
      (if i.Address = "" then "0.0.0.0"
        else if ':' ∈ i.Address.data then "[" ++ i.Address ++ "]"
        else i.Address)
      ++ ":" ++ Nat.repr (if i.Port = 0 then 10053 else i.Port) := by
  unfold InputTCPSocketConfig.GetNet
  simp only [strconv_Itoa_ofNat]
  by_cases ha : i.Address = ""
  · have hc : strings_Contains_colon "0.0.0.0" = false := by decide
    simp [ha, hc]
  · by_cases hc : ':' ∈ i.Address.data
    · simp [ha, hc, strings_Contains_colon]
    · simp [ha, hc, strings_Contains_colon]

/-- Sample values of `GetNet`: the zero configuration, an IPv4 address and an
IPv6 literal. -/
theorem InputTCPSocketConfig.GetNet_samples :
    InputTCPSocketConfig.GetNet { Address := "", Port := 0 } = "0.0.0.0:10053" ∧
    InputTCPSocketConfig.GetNet { Address := "127.0.0.1", Port := 53 } = "127.0.0.1:53" ∧
    InputTCPSocketConfig.GetNet { Address := "::1", Port := 0 } = "[::1]:10053" := by
  decide

/-! ## Destination address and port -/

/-- C11: `GetAddress` is host, colon, decimal port, where the host is
`localhost` when `Host` is empty and `Host` otherwise, and the port is 10053
when `Port` is 0 and `Port` otherwise; the zero-valued configuration yields
`localhost:10053`. -/
theorem OutputTCPSocketConfig.GetAddress_eq (o : OutputTCPSocketConfig) :
    o.GetAddress =
      (if o.Host = "" then "localhost" else o.Host)
        ++ ":" ++ Nat.repr (if o.Port = 0 then 10053 else o.Port) ∧
    OutputTCPSocketConfig.GetAddress { Host := "", Port := 0, BufferSize := 0 }
      = "localhost:10053" := by
  constructor
  · unfold OutputTCPSocketConfig.GetAddress
    simp only [strconv_Itoa_ofNat]
  · decide

/-- C12: `GetPort` is 24224 when `Port` is 0 and `Port` otherwise; `Port` is
a `uint16`, so the result lies in 1..65535. -/
theorem OutputFluentConfig.GetPort_default (o : OutputFluentConfig) (h : o.Port < 65536) :
    o.GetPort = (if o.Port = 0 then 24224 else (o.Port : Int)) ∧
    1 ≤ o.GetPort ∧ o.GetPort ≤ 65535 := by
  unfold OutputFluentConfig.GetPort
  refine ⟨?_, ?_, ?_⟩ <;> split_ifs <;> simp <;> omega

/-- C12 at the unset port and at the largest port. -/
theorem OutputFluentConfig.GetPort_default_witness :
    OutputFluentConfig.GetPort
      { Host := "localhost", Tag := "a", Port := 0, IPv4Mask := 0, IPv6Mask := 0,
        BufferSize := 0 } = 24224 ∧
    OutputFluentConfig.GetPort
      { Host := "localhost", Tag := "a", Port := 65535, IPv4Mask := 0, IPv6Mask := 0,
        BufferSize := 0 } ≤ 65535 :=
  ⟨(OutputFluentConfig.GetPort_default
      { Host := "localhost", Tag := "a", Port := 0, IPv4Mask := 0, IPv6Mask := 0,
        BufferSize := 0 } (by decide)).1,
    (OutputFluentConfig.GetPort_default
      { Host := "localhost", Tag := "a", Port := 65535, IPv4Mask := 0, IPv6Mask := 0,
        BufferSize := 0 } (by decide)).2.2⟩

/-! ## Validated forward-protocol configurations -/

/-- C15: a forward-protocol configuration accepted by `Validate` resolves to
mask lengths in range, `1 <= GetIPv4Mask <= 32` and
`0 <= GetIPv6Mask <= 128`. -/
theorem OutputFluentConfig.masks_in_range_of_Validate (o : OutputFluentConfig)
    (h : o.Validate = none) :
    1 ≤ o.GetIPv4Mask ∧ o.GetIPv4Mask ≤ 32 ∧ 0 ≤ o.GetIPv6Mask ∧ o.GetIPv6Mask ≤ 128 := by
  obtain ⟨-, -, -, -, -, h4, h6⟩ := (OutputFluentConfig.Validate_eq_none_iff o).mp h
  unfold OutputFluentConfig.GetIPv4Mask OutputFluentConfig.GetIPv6Mask
  refine ⟨?_, ?_, ?_, ?_⟩ <;> split_ifs <;> simp <;> omega

/-- C15 at an accepted configuration with `IPv4Mask = 32` and
`IPv6Mask = 128`. -/
theorem OutputFluentConfig.masks_in_range_of_Validate_witness :
    OutputFluentConfig.Validate
      { Host := "localhost", Tag := "A", Port := 0, IPv4Mask := 32, IPv6Mask := 128,
        BufferSize := 0 } = none ∧
    OutputFluentConfig.GetIPv4Mask
      { Host := "localhost", Tag := "A", Port := 0, IPv4Mask := 32, IPv6Mask := 128,
        BufferSize := 0 } ≤ 32 ∧
    OutputFluentConfig.GetIPv6Mask
      { Host := "localhost", Tag := "A", Port := 0, IPv4Mask := 32, IPv6Mask := 128,
        BufferSize := 0 } ≤ 128 :=
  ⟨by decide,
    (OutputFluentConfig.masks_in_range_of_Validate
      { Host := "localhost", Tag := "A", Port := 0, IPv4Mask := 32, IPv6Mask := 128,
        BufferSize := 0 } (by decide)).2.1,
    (OutputFluentConfig.masks_in_range_of_Validate
      { Host := "localhost", Tag := "A", Port := 0, IPv4Mask := 32, IPv6Mask := 128,
        BufferSize := 0 } (by decide)).2.2.2⟩

/-! ## Path- and host-based entries -/

theorem InputUnixSocketConfig.Validate_inputUnix_eq (i : InputUnixSocketConfig) :
    i.Validate = if i.Path = "" then
        some { configType := "", no := 0, errors := [errors_New "Path must not be empty"] }
      else none := by
  unfold InputUnixSocketConfig.Validate
  split_ifs <;> rfl

theorem InputFileConfig.Validate_inputFile_eq (i : InputFileConfig) :
    i.Validate = if i.Path = "" then
        some { configType := "", no := 0, errors := [errors_New "Path must not be empty"] }
      else none := by
  unfold InputFileConfig.Validate
  split_ifs <;> rfl

theorem InputTailConfig.Validate_inputTail_eq (i : InputTailConfig) :
    i.Validate = if i.Path = "" then
        some { configType := "", no := 0, errors := [errors_New "Path must not be empty"] }
      else none := by
  unfold InputTailConfig.Validate
  split_ifs <;> rfl

theorem InputTCPSocketConfig.Validate_inputTCP_eq (i : InputTCPSocketConfig) :
    i.Validate = if i.Address = "" then
        some { configType := "", no := 0, errors := [errors_New "Host must not be empty"] }
      else none := by
  unfold InputTCPSocketConfig.Validate
  split_ifs <;> rfl

theorem OutputUnixSocketConfig.Validate_outputUnix_eq (o : OutputUnixSocketConfig) :
    o.Validate = if o.Path = "" then
        some { configType := "", no := 0, errors := [errors_New "Path must not be empty"] }
      else none := by
  unfold OutputUnixSocketConfig.Validate
  split_ifs <;> rfl

theorem OutputFileConfig.Validate_outputFile_eq (o : OutputFileConfig) :
    o.Validate = if o.Path = "" then
        some { configType := "", no := 0, errors := [errors_New "Path must not be empty"] }
      else none := by
  unfold OutputFileConfig.Validate
  split_ifs <;> rfl

theorem OutputTCPSocketConfig.Validate_outputTCP_eq (o : OutputTCPSocketConfig) :
    o.Validate = if o.Host = "" then
        some { configType := "", no := 0, errors := [errors_New "Host must not be empty"] }
      else none := by
  unfold OutputTCPSocketConfig.Validate
  split_ifs <;> rfl

/-- C16: the validators of the path- and host-based entries return `nil`
exactly for a non-empty `Path` (the five path-based entries), a non-empty
`Address` (TCP input) and a non-empty `Host` (TCP output); a non-nil result
carries exactly one error. -/
theorem Validate_eq_none_iff_destination (iu : InputUnixSocketConfig) (ifile : InputFileConfig)
    (itail : InputTailConfig) (itcp : InputTCPSocketConfig) (ou : OutputUnixSocketConfig)
    (ofile : OutputFileConfig) (otcp : OutputTCPSocketConfig) :
    ((iu.Validate = none ↔ iu.Path ≠ "") ∧
      (ifile.Validate = none ↔ ifile.Path ≠ "") ∧
      (itail.Validate = none ↔ itail.Path ≠ "") ∧
      (ou.Validate = none ↔ ou.Path ≠ "") ∧
      (ofile.Validate = none ↔ ofile.Path ≠ "") ∧
      (itcp.Validate = none ↔ itcp.Address ≠ "") ∧
      (otcp.Validate = none ↔ otcp.Host ≠ "")) ∧
    ((∀ e, iu.Validate = some e → e.errors.length = 1) ∧
      (∀ e, ifile.Validate = some e → e.errors.length = 1) ∧
      (∀ e, itail.Validate = some e → e.errors.length = 1) ∧
      (∀ e, ou.Validate = some e → e.errors.length = 1) ∧
      (∀ e, ofile.Validate = some e → e.errors.length = 1) ∧
      (∀ e, itcp.Validate = some e → e.errors.length = 1) ∧
      (∀ e, otcp.Validate = some e → e.errors.length = 1)) := by
  rw [InputUnixSocketConfig.Validate_inputUnix_eq, InputFileConfig.Validate_inputFile_eq,
    InputTailConfig.Validate_inputTail_eq, InputTCPSocketConfig.Validate_inputTCP_eq,
    OutputUnixSocketConfig.Validate_outputUnix_eq, OutputFileConfig.Validate_outputFile_eq,
    OutputTCPSocketConfig.Validate_outputTCP_eq]
  refine ⟨⟨?_, ?_, ?_, ?_, ?_, ?_, ?_⟩, ⟨?_, ?_, ?_, ?_, ?_, ?_, ?_⟩⟩
  all_goals split_ifs with h
  all_goals simp [h]

/-- C16 at entries with an empty destination: each is rejected with one
error. -/
theorem Validate_eq_none_iff_destination_witness :
    (∃ e, InputUnixSocketConfig.Validate { Path := "", User := "" } = some e ∧
      e.errors.length = 1) ∧
    (∃ e, InputTCPSocketConfig.Validate { Address := "", Port := 0 } = some e ∧
      e.errors.length = 1) ∧
    (OutputTCPSocketConfig.Validate { Host := "collector", Port := 0, BufferSize := 0 } = none) :=
  ⟨⟨_, rfl, (Validate_eq_none_iff_destination { Path := "", User := "" } { Path := "" }
      { Path := "" } { Address := "", Port := 0 } { Path := "", BufferSize := 0 }
      { Path := "", User := "", BufferSize := 0 }
      { Host := "collector", Port := 0, BufferSize := 0 }).2.1 _ rfl⟩,
    ⟨_, rfl, (Validate_eq_none_iff_destination { Path := "", User := "" } { Path := "" }
      { Path := "" } { Address := "", Port := 0 } { Path := "", BufferSize := 0 }
      { Path := "", User := "", BufferSize := 0 }
      { Host := "collector", Port := 0, BufferSize := 0 }).2.2.2.2.2.2.1 _ rfl⟩,
    (Validate_eq_none_iff_destination { Path := "", User := "" } { Path := "" }
      { Path := "" } { Address := "", Port := 0 } { Path := "", BufferSize := 0 }
      { Path := "", User := "", BufferSize := 0 }
      { Host := "collector", Port := 0, BufferSize := 0 }).1.2.2.2.2.2.2.mpr (by decide)⟩

/-! ## The default host of a validated TCP entry -/

/-- Two texts that agree up to and including the first occurrence of a
separator have the same part before it. -/
theorem eq_of_append_sep_eq (c : Char) :
    ∀ (a b x y : List Char), c ∉ a → c ∉ b → a ++ c :: x = b ++ c :: y → a = b := by
  intro a
  induction a with
  | nil =>
    intro b x y _ hb h
    cases b with
    | nil => rfl
    | cons d b =>
      simp only [List.nil_append, List.cons_append, List.cons.injEq] at h
      exact absurd h.1 (by intro hcd; exact hb (by simp [hcd]))
  | cons d a ih =>
    intro b x y ha hb h
    cases b with
    | nil =>
      simp only [List.nil_append, List.cons_append, List.cons.injEq] at h
      exact absurd h.1.symm (by intro hcd; exact ha (by simp [hcd]))
    | cons d2 b =>
      simp only [List.cons_append, List.cons.injEq] at h
      rw [h.1, ih b x y (fun hm => ha (List.mem_cons_of_mem _ hm))
        (fun hm => hb (List.mem_cons_of_mem _ hm)) h.2]

/-- C17: for a validated TCP input, `GetNet` starts with `0.0.0.0:` only when
`Address` is itself `0.0.0.0`; for a validated TCP output, `GetAddress` is the
configured `Host`, a colon and the decimal port, so the fallback `localhost`
is not used. -/
theorem TCP_default_host_unused (i : InputTCPSocketConfig) (o : OutputTCPSocketConfig) :
    (i.Validate = none → ("0.0.0.0:" : String).data <+: i.GetNet.data →
      i.Address = "0.0.0.0") ∧
    (o.Validate = none →
      o.GetAddress = o.Host ++ ":" ++ Nat.repr (if o.Port = 0 then 10053 else o.Port)) := by
  constructor
  · intro hv hpre
    rw [InputTCPSocketConfig.Validate_inputTCP_eq] at hv
    have ha : i.Address ≠ "" := by
      intro h; rw [if_pos h] at hv; exact Option.noConfusion hv
    unfold InputTCPSocketConfig.GetNet at hpre
    simp only [if_neg ha, strings_Contains_colon] at hpre
    obtain ⟨t, ht⟩ := hpre
    by_cases hc : i.Address.data.contains ':' = true
    · simp only [hc, if_true, String.data_append] at ht
      exact absurd ht (by intro h; cases h)
    · have hmem : ':' ∉ i.Address.data := by simpa using hc
      have hf : i.Address.data.contains ':' = false := by simpa using hc
      rw [hf] at ht
      have ht2 : ['0', '.', '0', '.', '0', '.', '0'] ++ ':' :: t
          = i.Address.data ++ ':' ::
            (strconv_Itoa (Int.ofNat (if i.Port = 0 then 10053 else i.Port))).data := by
        simpa [String.data_append] using ht
      have := eq_of_append_sep_eq ':' _ _ _ _ (by decide) hmem ht2
      exact String.ext this.symm
  · intro hv
    rw [OutputTCPSocketConfig.Validate_outputTCP_eq] at hv
    have hh : o.Host ≠ "" := by
      intro h; rw [if_pos h] at hv; exact Option.noConfusion hv
    unfold OutputTCPSocketConfig.GetAddress
    simp only [if_neg hh, strconv_Itoa_ofNat]

/-- C17 at the validated input with `Address = "0.0.0.0"`, whose `GetNet`
starts with `0.0.0.0:`, and at the validated output with host `collector`. -/
theorem TCP_default_host_unused_witness :
    InputTCPSocketConfig.Validate { Address := "0.0.0.0", Port := 53 } = none ∧
    ("0.0.0.0:" : String).data <+:
      (InputTCPSocketConfig.GetNet { Address := "0.0.0.0", Port := 53 }).data ∧
    OutputTCPSocketConfig.GetAddress { Host := "collector", Port := 0, BufferSize := 0 }
      = "collector" ++ ":" ++ Nat.repr 10053 :=
  ⟨by decide, ⟨['5', '3'], by decide⟩,
    (TCP_default_host_unused { Address := "0.0.0.0", Port := 53 }
      { Host := "collector", Port := 0, BufferSize := 0 }).2 (by decide)⟩

/-! ## The shape of the aggregated result -/

theorem rangeValidate_nil_eq_filterMap {α : Type} (configType : String)
    (validate : α → Option ValidationError) (xs : List α) :
    ∀ n : Nat, rangeValidate configType validate n xs [] =
      (xs.enumFrom n).filterMap fun p =>
        (validate p.2).map fun err =>
          GoError.validation { err with configType := configType, no := Int.ofNat p.1 } := by
  induction xs with
  | nil => intro n; rfl
  | cons x rest ih =>
    intro n
    cases h : validate x with
    | none =>
      simp only [rangeValidate, h, List.enumFrom_cons]
      rw [ih (n + 1), List.filterMap_cons]
      simp [h]
    | some e =>
      simp only [rangeValidate, h, List.enumFrom_cons]
      rw [rangeValidate_append, ih (n + 1), List.filterMap_cons]
      simp [h]

theorem rangeValidate_eq_reportedErrors {α : Type} (configType : String)
    (validate : α → Option ValidationError) (xs : List α) (errs : List GoError) :
    rangeValidate configType validate 0 xs errs
      = errs ++ reportedErrors configType validate xs := by
  rw [rangeValidate_append, rangeValidate_nil_eq_filterMap]
  rfl

theorem length_filterMap_enumFrom {α : Type} (configType : String)
    (validate : α → Option ValidationError) (xs : List α) :
    ∀ n : Nat, ((xs.enumFrom n).filterMap fun p =>
        (validate p.2).map fun err =>
          GoError.validation { err with configType := configType, no := Int.ofNat p.1 }).length
      = countRejected validate xs := by
  induction xs with
  | nil => intro n; rfl
  | cons x rest ih =>
    intro n
    cases h : validate x with
    | none =>
      rw [List.enumFrom_cons, List.filterMap_cons]
      simp only [h, Option.map_none']
      rw [ih (n + 1)]
      simp [countRejected, h]
    | some e =>
      rw [List.enumFrom_cons, List.filterMap_cons]
      simp only [h, Option.map_some', List.length_cons]
      rw [ih (n + 1)]
      simp [countRejected, h]

theorem reportedErrors_length {α : Type} (configType : String)
    (validate : α → Option ValidationError) (xs : List α) :
    (reportedErrors configType validate xs).length = countRejected validate xs :=
  length_filterMap_enumFrom configType validate xs 0

/-- C14: `Config.Validate` aggregates without failing fast.  Its result is the
`InputMsgBuffer` error, present exactly when `InputMsgBuffer < 128`, followed
by one `ValidationError` for each rejected entry of `InputUnix`, `InputFile`,
`InputTCP`, `OutputUnix`, `OutputFile`, `OutputTCP` and `OutputFluent`, in
that order of the lists and in index order within a list, each with the name
of its list and the zero-based index of the entry; nothing else is in it, so
its length is the number of rejected entries plus one when the buffer is too
small. -/
theorem Config.Validate_aggregates (c : Config) :
    c.Validate =
      (if c.InputMsgBuffer < 128 then
          [GoError.basic (errors_New "InputMsgBuffer must not small 128")]
        else [])
      ++ reportedErrors "InputUnix" InputUnixSocketConfig.Validate c.InputUnix
      ++ reportedErrors "InputFile" InputFileConfig.Validate c.InputFile
      ++ reportedErrors "InputTCP" InputTCPSocketConfig.Validate c.InputTCP
      ++ reportedErrors "OutputUnix" OutputUnixSocketConfig.Validate c.OutputUnix
      ++ reportedErrors "OutputFile" OutputFileConfig.Validate c.OutputFile
      ++ reportedErrors "OutputTCP" OutputTCPSocketConfig.Validate c.OutputTCP
      ++ reportedErrors "OutputFluent" OutputFluentConfig.Validate c.OutputFluent ∧
    c.Validate.length =
      (if c.InputMsgBuffer < 128 then 1 else 0)
      + countRejected InputUnixSocketConfig.Validate c.InputUnix
      + countRejected InputFileConfig.Validate c.InputFile
      + countRejected InputTCPSocketConfig.Validate c.InputTCP
      + countRejected OutputUnixSocketConfig.Validate c.OutputUnix
      + countRejected OutputFileConfig.Validate c.OutputFile
      + countRejected OutputTCPSocketConfig.Validate c.OutputTCP
      + countRejected OutputFluentConfig.Validate c.OutputFluent := by
  have heq : c.Validate =
      (if c.InputMsgBuffer < 128 then
          [GoError.basic (errors_New "InputMsgBuffer must not small 128")]
        else [])
      ++ reportedErrors "InputUnix" InputUnixSocketConfig.Validate c.InputUnix
      ++ reportedErrors "InputFile" InputFileConfig.Validate c.InputFile
      ++ reportedErrors "InputTCP" InputTCPSocketConfig.Validate c.InputTCP
      ++ reportedErrors "OutputUnix" OutputUnixSocketConfig.Validate c.OutputUnix
      ++ reportedErrors "OutputFile" OutputFileConfig.Validate c.OutputFile
      ++ reportedErrors "OutputTCP" OutputTCPSocketConfig.Validate c.OutputTCP
      ++ reportedErrors "OutputFluent" OutputFluentConfig.Validate c.OutputFluent := by
    unfold Config.Validate
    simp only [rangeValidate_eq_reportedErrors, List.nil_append]
  refine ⟨heq, ?_⟩
  rw [heq]
  simp only [List.length_append, reportedErrors_length]
  split_ifs <;> rfl

/-- Sample value of `Config.Validate`: a buffer below the floor, a rejected
second entry of `InputFile`, a skipped `InputTail` entry and a rejected first
entry of `OutputTCP`. -/
theorem Config.Validate_sample :
    Config.Validate
      { InputMsgBuffer := 50, InputUnix := [],
        InputFile := [{ Path := "/var/log/a" }, { Path := "" }],
        InputTail := [{ Path := "" }], InputTCP := [], OutputUnix := [], OutputFile := [],
        OutputTCP := [{ Host := "", Port := 0, BufferSize := 0 }], OutputFluent := [] }
    = [GoError.basic (errors_New "InputMsgBuffer must not small 128"),
        GoError.validation
          { configType := "InputFile", no := 1,
            errors := [errors_New "Path must not be empty"] },
        GoError.validation
          { configType := "OutputTCP", no := 0,
            errors := [errors_New "Host must not be empty"] }] := by
  decide

/-! ## Decimal text -/

theorem digitChar_isDigit (d : Nat) (h : d < 10) : (Nat.digitChar d).isDigit = true := by
  interval_cases d <;> rfl

theorem toDigitsCore_isDigit (fuel : Nat) :
    ∀ (n : Nat) (ds : List Char), (∀ c ∈ ds, c.isDigit = true) →
      ∀ c ∈ Nat.toDigitsCore 10 fuel n ds, c.isDigit = true := by
  induction fuel with
  | zero => intro n ds hds; simpa [Nat.toDigitsCore] using hds
  | succ fuel ih =>
    intro n ds hds
    have hcons : ∀ c ∈ Nat.digitChar (n % 10) :: ds, c.isDigit = true := by
      intro c hc
      rcases List.mem_cons.mp hc with rfl | hc
      · exact digitChar_isDigit _ (Nat.mod_lt _ (by decide))
      · exact hds c hc
    unfold Nat.toDigitsCore
    by_cases h0 : n / 10 = 0
    · simpa [h0] using hcons
    · simp only [h0, if_false]
      exact ih (n / 10) _ hcons

theorem repr_isDigit (n : Nat) : ∀ c ∈ (Nat.repr n).data, c.isDigit = true := by
  intro c hc
  exact toDigitsCore_isDigit (n + 1) n [] (by simp) c hc

/-- The decimal text of an `int` holds no newline. -/
theorem strconv_Itoa_no_newline (i : Int) : '\n' ∉ (strconv_Itoa i).data := by
  intro h
  cases i with
  | ofNat n => exact absurd (repr_isDigit n _ h) (by decide)
  | negSucc n =>
    have h2 : '\n' ∈ ("-" : String).data ++ (Nat.repr (n + 1)).data := h
    rcases List.mem_append.mp h2 with h3 | h3
    · exact absurd h3 (by decide)
    · exact absurd (repr_isDigit _ _ h3) (by decide)

/-! ## The validation error -/

theorem addAll_errors (errs : List BasicError) : (addAll errs).errors = errs := by
  have h : ∀ (e : ValidationError), (errs.foldl ValidationError.Add e).errors
      = e.errors ++ errs := by
    induction errs with
    | nil => intro e; simp
    | cons err rest ih => intro e; simp [ih, ValidationError.Add]
  simpa [addAll, NewValidationError] using h NewValidationError

theorem foldl_append_eq_concatLines (f : BasicError → String) (errs : List BasicError) :
    ∀ msg : String, errs.foldl (fun msg err => msg ++ f err) msg
      = msg ++ concatLines (errs.map f) := by
  induction errs with
  | nil => intro msg; simp [concatLines]
  | cons err rest ih =>
    intro msg
    rw [List.foldl_cons, ih, List.map_cons, concatLines, String.append_assoc]

theorem ValidationError.Error_eq_concatLines (e : ValidationError) :
    e.Error = concatLines (e.errors.map fun err => errorLine e.configType e.no err.msg) := by
  unfold ValidationError.Error
  rw [foldl_append_eq_concatLines
    (fun err => e.configType ++ "[" ++ strconv_Itoa e.no ++ "]: " ++ err.msg ++ "\n")]
  simp [errorLine]

theorem lineCount_append (s t : String) : lineCount (s ++ t) = lineCount s + lineCount t := by
  simp [lineCount, String.data_append]

theorem lineCount_errorLine (configType : String) (no : Int) (message : String)
    (hct : '\n' ∉ configType.data) (hmsg : '\n' ∉ message.data) :
    lineCount (errorLine configType no message) = 1 := by
  have hno := strconv_Itoa_no_newline no
  unfold errorLine
  simp only [lineCount_append]
  have h1 : lineCount configType = 0 := List.count_eq_zero.mpr hct
  have h2 : lineCount (strconv_Itoa no) = 0 := List.count_eq_zero.mpr hno
  have h3 : lineCount message = 0 := List.count_eq_zero.mpr hmsg
  have h4 : lineCount "[" = 0 := by decide
  have h5 : lineCount "]: " = 0 := by decide
  have h6 : lineCount "\n" = 1 := by decide
  omega

theorem lineCount_concatLines (configType : String) (no : Int) (errs : List BasicError)
    (hct : '\n' ∉ configType.data) (hmsg : ∀ err ∈ errs, '\n' ∉ err.msg.data) :
    lineCount (concatLines (errs.map fun err => errorLine configType no err.msg))
      = errs.length := by
  induction errs with
  | nil => rfl
  | cons err rest ih =>
    rw [List.map_cons, concatLines, lineCount_append,
      lineCount_errorLine configType no err.msg hct (hmsg err (List.mem_cons_self _ _)),
      ih (fun e he => hmsg e (List.mem_cons_of_mem _ he)), List.length_cons]
    omega

/-- C18, as stated, fails on the number of lines: after one call of `Add`
with an error whose message holds a newline, `Error()` has two lines. -/
theorem ValidationError.Error_lineCount_counterexample :
    ¬ (lineCount (ValidationError.Error (addAll [errors_New "a\nb"]))
        = [errors_New "a\nb"].length) ∧
    ValidationError.Error (addAll [errors_New "a\nb"]) = "[0]: a\nb\n" := by
  decide

/-- C18 (amended): after `k` calls of `Add` on the value of
`NewValidationError()`, with `configType` and `no` set as `Config.Validate`
sets them, `Err()` is `nil` if and only if `k = 0` and is the value itself
otherwise, and `Error()` is the concatenation, in the order of the calls, of
one line `<configType>[<no>]: <message>` with a closing newline for each added
error; when neither `configType` nor a message holds a newline, it has exactly
`k` lines. -/
theorem ValidationError.accumulates (errs : List BasicError) (configType : String) (no : Int) :
    (ValidationError.Err { addAll errs with configType := configType, no := no } = none
      ↔ errs.length = 0) ∧
    (errs.length ≠ 0 →
      ValidationError.Err { addAll errs with configType := configType, no := no }
        = some { addAll errs with configType := configType, no := no }) ∧
    ValidationError.Error { addAll errs with configType := configType, no := no }
      = concatLines (errs.map fun err => errorLine configType no err.msg) ∧
    ('\n' ∉ configType.data → (∀ err ∈ errs, '\n' ∉ err.msg.data) →
      lineCount (ValidationError.Error { addAll errs with configType := configType, no := no })
        = errs.length) := by
  have herr : ({ addAll errs with configType := configType, no := no } :
      ValidationError).errors = errs := addAll_errors errs
  have hError : ValidationError.Error { addAll errs with configType := configType, no := no }
      = concatLines (errs.map fun err => errorLine configType no err.msg) := by
    rw [ValidationError.Error_eq_concatLines, herr]
  refine ⟨?_, ?_, hError, ?_⟩
  · rw [ValidationError.Err_eq_none_iff, herr, List.length_eq_zero]
  · intro hk
    unfold ValidationError.Err
    rw [herr, if_pos (Nat.pos_of_ne_zero hk)]
  · intro hct hmsg
    rw [hError]
    exact lineCount_concatLines configType no errs hct hmsg

/-- C18 (amended) at two calls of `Add` with the fields set to `InputFile` and
3: the error is returned, and its text has two lines. -/
theorem ValidationError.accumulates_witness :
    ([errors_New "Path must not be empty", errors_New "second"].length ≠ 0) ∧
    '\n' ∉ ("InputFile" : String).data ∧
    ValidationError.Error
      { addAll [errors_New "Path must not be empty", errors_New "second"] with
        configType := "InputFile", no := 3 }
      = "InputFile[3]: Path must not be empty\nInputFile[3]: second\n" ∧
    lineCount (ValidationError.Error
      { addAll [errors_New "Path must not be empty", errors_New "second"] with
        configType := "InputFile", no := 3 }) = 2 :=
  ⟨by decide, by decide, by decide,
    (ValidationError.accumulates [errors_New "Path must not be empty", errors_New "second"]
      "InputFile" 3).2.2.2 (by decide) (by decide)⟩

/-! ## Round trip of the address with prefix length -/

/-- Sample values of the address text. -/
theorem IPAddr.IPString_samples :
    IPAddr.IPString (IPAddr.v4 [10, 0, 0, 255]) = "10.0.0.255" ∧
    IPAddr.IPString (IPAddr.v6 [0, 0, 0, 0, 0, 0, 0, 0]) = "::" ∧
    IPAddr.IPString (IPAddr.v6 [0, 0, 0, 0, 0, 0, 0, 1]) = "::1" ∧
    IPAddr.IPString (IPAddr.v6 [1, 0, 0, 0, 0, 0, 0, 0]) = "1::" ∧
    IPAddr.IPString (IPAddr.v6 [0x2001, 0xdb8, 0, 0, 1, 0, 0, 1]) = "2001:db8::1:0:0:1" ∧
    IPAddr.IPString (IPAddr.v6 [0x2001, 0xdb8, 0, 1, 1, 1, 1, 1]) = "2001:db8:0:1:1:1:1:1" ∧
    IPAddr.ParseIP "2001:db8::1:0:0:1" = some (IPAddr.v6 [0x2001, 0xdb8, 0, 0, 1, 0, 0, 1]) ∧
    IPAddr.ParseIP "256.0.0.1" = none ∧ IPAddr.ParseIP "1::2::3" = none := by
  decide

/-- Sample values on the vectors of `TestNet`. -/
theorem Net.TestNet_samples :
    Net.MarshalJSON goIPText { IP := some (IPAddr.v4 [192, 168, 0, 1]), PrefixLength := 32 }
      = "\"192.168.0.1/32\"" ∧
    Net.UnmarshalJSON goIPText "\"192.168.0.1/32\""
      = some { IP := some (IPAddr.v4 [192, 168, 0, 1]), PrefixLength := 32 } ∧
    Net.MarshalJSON goIPText
        { IP := some (IPAddr.v6 [0x2001, 0xdb8, 0, 0, 0, 0, 0, 1]), PrefixLength := 48 }
      = "\"2001:db8::1/48\"" ∧
    Net.UnmarshalJSON goIPText "\"2001:db8::1/48\""
      = some { IP := some (IPAddr.v6 [0x2001, 0xdb8, 0, 0, 0, 0, 0, 1]), PrefixLength := 48 } ∧
    Net.MarshalJSON goIPText { IP := none, PrefixLength := 0 } = "\"<nil>\"" ∧
    Net.UnmarshalJSON goIPText "\"<nil>\"" = some { IP := none, PrefixLength := 0 } := by
  decide

theorem digitChar_value (d : Nat) (h : d < 10) :
    (Nat.digitChar d).toNat - '0'.toNat = d := by
  interval_cases d <;> rfl

theorem parseDecimalFrom_toDigitsCore (fuel : Nat) :
    ∀ (n : Nat) (ds : List Char), n < fuel →
      parseDecimalFrom (Nat.toDigitsCore 10 fuel n ds) 0 = parseDecimalFrom ds n := by
  induction fuel with
  | zero => intro n ds h; omega
  | succ fuel ih =>
    intro n ds h
    have hd : n % 10 < 10 := Nat.mod_lt _ (by decide)
    have hstep : parseDecimalFrom (Nat.digitChar (n % 10) :: ds) (n / 10)
        = parseDecimalFrom ds n := by
      rw [parseDecimalFrom, if_pos (digitChar_isDigit _ hd), digitChar_value _ hd]
      congr 1
      omega
    unfold Nat.toDigitsCore
    by_cases h0 : n / 10 = 0
    · simp only [h0, if_true]
      rw [← hstep, h0]
    · simp only [h0, if_false]
      rw [ih (n / 10) _ (by omega), hstep]

theorem toDigitsCore_ne_nil (fuel n : Nat) (ds : List Char) (h : 0 < fuel) :
    Nat.toDigitsCore 10 fuel n ds ≠ [] := by
  induction fuel generalizing n ds with
  | zero => omega
  | succ fuel ih =>
    unfold Nat.toDigitsCore
    by_cases h0 : n / 10 = 0
    · simp [h0]
    · simp only [h0, if_false]
      cases fuel with
      | zero => simp [Nat.toDigitsCore]
      | succ fuel => exact ih _ _ (by omega)

/-- Reading the decimal text of a number gives the number back. -/
theorem parseDecimal_repr (n : Nat) : parseDecimal (Nat.repr n).data = some n := by
  have hne : (Nat.repr n).data ≠ [] := toDigitsCore_ne_nil (n + 1) n [] (by omega)
  unfold parseDecimal
  rw [if_neg (by simpa using hne)]
  exact parseDecimalFrom_toDigitsCore (n + 1) n [] (by omega)

theorem splitChars_of_not_mem (c : Char) (b : List Char) (hb : c ∉ b) :
    splitChars c b = [b] := by
  induction b with
  | nil => rfl
  | cons d b ih =>
    have hd : d ≠ c := fun h => hb (by simp [h])
    have hb2 : c ∉ b := fun h => hb (List.mem_cons_of_mem _ h)
    simp [splitChars, hd, ih hb2]

theorem splitChars_append_sep (c : Char) (a b : List Char) (ha : c ∉ a) (hb : c ∉ b) :
    splitChars c (a ++ c :: b) = [a, b] := by
  induction a with
  | nil => simp [splitChars, splitChars_of_not_mem c b hb]
  | cons d a ih =>
    have hd : d ≠ c := fun h => ha (by simp [h])
    have ha2 : c ∉ a := fun h => ha (List.mem_cons_of_mem _ h)
    simp [splitChars, hd, ih ha2]

theorem unquote_quoted (text : List Char) : unquote ('"' :: (text ++ ['"'])) = some text := by
  simp [unquote]

/-- Reading the canonical text of a `Net` whose address is present gives the
`Net` back, when the address text holds no slash and is read back by
`ParseIP`, and the prefix length is in the range of the family. -/
theorem Net.Parse_GoString {IP : Type} (lib : IPText IP) (ip : IP) (prefixLength : Nat)
    (hvalid : prefixLength ≤ lib.bits ip)
    (hparse : lib.ParseIP (lib.IPString ip) = some ip)
    (hslash : '/' ∉ (lib.IPString ip).data) :
    Net.Parse lib (Net.GoString lib { IP := some ip, PrefixLength := prefixLength })
      = some { IP := some ip, PrefixLength := prefixLength } := by
  have hdigits : '/' ∉ (Nat.repr prefixLength).data :=
    fun h => absurd (repr_isDigit prefixLength _ h) (by decide)
  have hdata : (Net.GoString lib { IP := some ip, PrefixLength := prefixLength }).data
      = (lib.IPString ip).data ++ '/' :: (Nat.repr prefixLength).data := by
    show (lib.IPString ip ++ "/" ++ strconv_Itoa (Int.ofNat prefixLength)).data = _
    rw [strconv_Itoa_ofNat]
    simp [String.data_append]
  have hne : Net.GoString lib { IP := some ip, PrefixLength := prefixLength } ≠ "<nil>" := by
    intro h
    have hmem : '/' ∈ ("<nil>" : String).data := by
      rw [← h, hdata]; simp
    exact absurd hmem (by decide)
  unfold Net.Parse
  rw [if_neg hne, hdata, splitChars_append_sep '/' _ _ hslash hdigits]
  simp only [parseDecimal_repr]
  rw [show String.mk (lib.IPString ip).data = lib.IPString ip from rfl, hparse]
  simp [hvalid]

/-- The round trip of a `Net` through `MarshalJSON` and `UnmarshalJSON` for
any address text that holds no slash and whose `ParseIP` reads back what
`IPString` prints. -/
theorem Net.roundtrip_of_reads_back {IP : Type} (lib : IPText IP) (ip : IP) (prefixLength : Nat)
    (hvalid : prefixLength ≤ lib.bits ip)
    (hparse : lib.ParseIP (lib.IPString ip) = some ip)
    (hslash : '/' ∉ (lib.IPString ip).data) :
    Net.MarshalJSON lib { IP := some ip, PrefixLength := prefixLength }
      = "\"" ++ (lib.IPString ip ++ "/" ++ Nat.repr prefixLength) ++ "\"" ∧
    Net.UnmarshalJSON lib (Net.MarshalJSON lib { IP := some ip, PrefixLength := prefixLength })
      = some { IP := some ip, PrefixLength := prefixLength } ∧
    (∀ n, Net.UnmarshalJSON lib
        (Net.MarshalJSON lib { IP := some ip, PrefixLength := prefixLength }) = some n →
      Net.GoString lib n = Net.GoString lib { IP := some ip, PrefixLength := prefixLength }) ∧
    Net.MarshalJSON lib { IP := none, PrefixLength := 0 } = "\"<nil>\"" ∧
    (∃ n, Net.UnmarshalJSON lib (Net.MarshalJSON lib { IP := none, PrefixLength := 0 }) = some n
      ∧ n.IP = none) := by
  have hun : Net.UnmarshalJSON lib
      (Net.MarshalJSON lib { IP := some ip, PrefixLength := prefixLength })
      = some { IP := some ip, PrefixLength := prefixLength } := by
    unfold Net.UnmarshalJSON Net.MarshalJSON
    have hq : ("\"" ++ Net.GoString lib { IP := some ip, PrefixLength := prefixLength }
        ++ "\"").data
        = '"' :: ((Net.GoString lib { IP := some ip, PrefixLength := prefixLength }).data
          ++ ['"']) := by
      simp [String.data_append]
    rw [hq, unquote_quoted]
    exact Net.Parse_GoString lib ip prefixLength hvalid hparse hslash
  refine ⟨rfl, hun, ?_, rfl, ⟨{ IP := none, PrefixLength := 0 }, ?_, rfl⟩⟩
  · intro n hn
    rw [hun] at hn
    rw [← Option.some.inj hn]
  · unfold Net.UnmarshalJSON Net.MarshalJSON Net.GoString
    rfl

/-! ## The instance of the address text reads back what it prints -/

theorem toDigitsCore_forall (base : Nat) (P : Char → Prop)
    (hP : ∀ d, d < base → P (Nat.digitChar d)) (hbase : 0 < base) (fuel : Nat) :
    ∀ (n : Nat) (ds : List Char), (∀ c ∈ ds, P c) →
      ∀ c ∈ Nat.toDigitsCore base fuel n ds, P c := by
  induction fuel with
  | zero => intro n ds hds; simpa [Nat.toDigitsCore] using hds
  | succ fuel ih =>
    intro n ds hds
    have hcons : ∀ c ∈ Nat.digitChar (n % base) :: ds, P c := by
      intro c hc
      rcases List.mem_cons.mp hc with rfl | hc
      · exact hP _ (Nat.mod_lt _ hbase)
      · exact hds c hc
    unfold Nat.toDigitsCore
    by_cases h0 : n / base = 0
    · simpa [h0] using hcons
    · simp only [h0, if_false]
      exact ih (n / base) _ hcons

theorem toDigits_ne_nil (base n : Nat) : Nat.toDigits base n ≠ [] := by
  have h : ∀ (fuel m : Nat) (ds : List Char), 0 < fuel →
      Nat.toDigitsCore base fuel m ds ≠ [] := by
    intro fuel
    induction fuel with
    | zero => intro m ds h; omega
    | succ fuel ih =>
      intro m ds _
      unfold Nat.toDigitsCore
      by_cases h0 : m / base = 0
      · simp [h0]
      · simp only [h0, if_false]
        cases fuel with
        | zero => simp [Nat.toDigitsCore]
        | succ fuel => exact ih _ _ (by omega)
  exact h (n + 1) n [] (by omega)

theorem hexValue_digitChar (d : Nat) (h : d < 16) : hexValue (Nat.digitChar d) = some d := by
  interval_cases d <;> rfl

theorem parseHexFrom_toDigitsCore (fuel : Nat) :
    ∀ (n : Nat) (ds : List Char), n < fuel →
      parseHexFrom (Nat.toDigitsCore 16 fuel n ds) 0 = parseHexFrom ds n := by
  induction fuel with
  | zero => intro n ds h; omega
  | succ fuel ih =>
    intro n ds h
    have hd : n % 16 < 16 := Nat.mod_lt _ (by decide)
    have hstep : parseHexFrom (Nat.digitChar (n % 16) :: ds) (n / 16)
        = parseHexFrom ds n := by
      rw [parseHexFrom, hexValue_digitChar _ hd]
      simp only
      congr 1
      omega
    unfold Nat.toDigitsCore
    by_cases h0 : n / 16 = 0
    · simp only [h0, if_true]
      rw [← hstep, h0]
    · simp only [h0, if_false]
      rw [ih (n / 16) _ (by omega), hstep]

theorem parseGroup_toDigits (g : Nat) (h : g < 65536) :
    parseGroup (Nat.toDigits 16 g) = some g := by
  have hlen : (Nat.toDigits 16 g).length ≤ 4 :=
    Nat.toDigitsCore_length 16 (by decide) (g + 1) g 4 (by simpa using h) (by decide)
  have hne := toDigits_ne_nil 16 g
  unfold parseGroup
  rw [if_neg (by
    intro hor
    rcases hor with h1 | h1
    · exact hne (by simpa using h1)
    · omega)]
  exact parseHexFrom_toDigitsCore (g + 1) g [] (by omega)

theorem parseOctet_toDigits (o : Nat) (h : o < 256) :
    parseOctet (Nat.toDigits 10 o) = some o := by
  have hlen : (Nat.toDigits 10 o).length ≤ 3 :=
    Nat.toDigitsCore_length 10 (by decide) (o + 1) o 3 (by omega) (by decide)
  have hdec : parseDecimal (Nat.toDigits 10 o) = some o := parseDecimal_repr o
  unfold parseOctet
  rw [hdec]
  simp [h, hlen]

theorem splitChars_append_sep_cons (c : Char) (a rest : List Char) (ha : c ∉ a) :
    splitChars c (a ++ c :: rest) = a :: splitChars c rest := by
  induction a with
  | nil => simp [splitChars]
  | cons d a ih =>
    have hd : d ≠ c := fun h => ha (by simp [h])
    have ha2 : c ∉ a := fun h => ha (List.mem_cons_of_mem _ h)
    simp [splitChars, hd, ih ha2]

theorem splitChars_joinWith (c : Char) (pieces : List (List Char)) (hne : pieces ≠ [])
    (hc : ∀ p ∈ pieces, c ∉ p) : splitChars c (joinWith c pieces) = pieces := by
  induction pieces with
  | nil => exact absurd rfl hne
  | cons p rest ih =>
    cases rest with
    | nil => simpa [joinWith] using splitChars_of_not_mem c p (hc p (by simp))
    | cons q rest =>
      rw [joinWith, splitChars_append_sep_cons c p _ (hc p (by simp)),
        ih (by simp) (fun x hx => hc x (List.mem_cons_of_mem _ hx))]

theorem mem_joinWith (c sep : Char) (pieces : List (List Char))
    (h : c ∈ joinWith sep pieces) : c = sep ∨ ∃ p ∈ pieces, c ∈ p := by
  induction pieces with
  | nil => simp [joinWith] at h
  | cons p rest ih =>
    cases rest with
    | nil => exact Or.inr ⟨p, by simp, by simpa [joinWith] using h⟩
    | cons q rest =>
      rw [joinWith] at h
      rcases List.mem_append.mp h with h1 | h1
      · exact Or.inr ⟨p, by simp, h1⟩
      · rcases List.mem_cons.mp h1 with h2 | h2
        · exact Or.inl h2
        · rcases ih h2 with h3 | ⟨x, hx, hcx⟩
          · exact Or.inl h3
          · exact Or.inr ⟨x, List.mem_cons_of_mem _ hx, hcx⟩

theorem sep_mem_joinWith (sep : Char) (p q : List Char) (rest : List (List Char)) :
    sep ∈ joinWith sep (p :: q :: rest) := by
  rw [joinWith]
  simp

theorem mapM_map_eq_some {α β : Type} (f : α → β) (g : β → Option α) (xs : List α)
    (h : ∀ x ∈ xs, g (f x) = some x) : (xs.map f).mapM g = some xs := by
  induction xs with
  | nil => rfl
  | cons x rest ih =>
    rw [List.map_cons, List.mapM_cons, h x (by simp),
      ih (fun y hy => h y (List.mem_cons_of_mem _ hy))]
    rfl

theorem find?_dot_or_colon (sep : Char) (l : List Char) (hsep : sep = '.' ∨ sep = ':')
    (h1 : ∀ c ∈ l, (c = '.' ∨ c = ':') → c = sep) (h2 : sep ∈ l) :
    l.find? (fun c => c = '.' ∨ c = ':') = some sep := by
  induction l with
  | nil => simp at h2
  | cons d l ih =>
    by_cases hd : d = '.' ∨ d = ':'
    · have := h1 d (by simp) hd
      rw [List.find?_cons_of_pos _ (by simpa using hd), this]
    · have hne : sep ≠ d := by
        intro h; rw [h] at hsep; exact hd hsep
      have h3 : sep ∈ l := by
        rcases List.mem_cons.mp h2 with h | h
        · exact absurd h hne
        · exact h
      rw [List.find?_cons_of_neg _ (by simpa using hd)]
      exact ih (fun c hc => h1 c (List.mem_cons_of_mem _ hc)) h3

theorem toDigits_ten_isDigit (n : Nat) : ∀ c ∈ Nat.toDigits 10 n, c.isDigit = true :=
  repr_isDigit n

theorem mem_joinWith_map {α : Type} (f : α → List Char) (P : Char → Prop) (sep : Char)
    (xs : List α) (hsep : P sep) (hf : ∀ x ∈ xs, ∀ c ∈ f x, P c) :
    ∀ c ∈ joinWith sep (xs.map f), P c := by
  intro c hc
  rcases mem_joinWith c sep _ hc with h | ⟨p, hp, hcp⟩
  · rw [h]; exact hsep
  · obtain ⟨x, hx, rfl⟩ := List.mem_map.mp hp
    exact hf x hx c hcp

/-- Every character of the text of an IPv4 address is a decimal digit or a
dot. -/
theorem IPAddr.IPString_v4_chars (octets : List Nat) :
    ∀ c ∈ (IPAddr.IPString (IPAddr.v4 octets)).data, c.isDigit = true ∨ c = '.' :=
  mem_joinWith_map (fun o => Nat.toDigits 10 o) (fun c => c.isDigit = true ∨ c = '.') '.'
    octets (Or.inr rfl) (fun o _ c hc => Or.inl (toDigits_ten_isDigit o c hc))

/-- The text of an IPv4 address with four octets below 256 is read back as
that address. -/
theorem IPAddr.ParseIP_IPString_v4 (octets : List Nat) (hlen : octets.length = 4)
    (hrange : ∀ o ∈ octets, o < 256) :
    IPAddr.ParseIP (IPAddr.IPString (IPAddr.v4 octets)) = some (IPAddr.v4 octets) := by
  have htext : (IPAddr.IPString (IPAddr.v4 octets)).data
      = joinWith '.' (octets.map fun o => Nat.toDigits 10 o) := rfl
  have hchars := IPAddr.IPString_v4_chars octets
  have hdot : '.' ∈ (IPAddr.IPString (IPAddr.v4 octets)).data := by
    rw [htext]
    rcases octets with _ | ⟨a, _ | ⟨b, rest⟩⟩
    · simp at hlen
    · simp at hlen
    · exact sep_mem_joinWith '.' _ _ _
  have hfind : (IPAddr.IPString (IPAddr.v4 octets)).data.find? (fun c => c = '.' ∨ c = ':')
      = some '.' := by
    apply find?_dot_or_colon '.' _ (Or.inl rfl) _ hdot
    intro c hc hsep
    rcases hchars c hc with h | h
    · rcases hsep with rfl | rfl
      · rfl
      · exact absurd h (by decide)
    · exact h
  have hpieces : ∀ p ∈ octets.map (fun o => Nat.toDigits 10 o), '.' ∉ p := by
    intro p hp hmem
    obtain ⟨o, _, rfl⟩ := List.mem_map.mp hp
    exact absurd (toDigits_ten_isDigit o _ hmem) (by decide)
  have hne : octets.map (fun o => Nat.toDigits 10 o) ≠ [] := by
    intro h
    rw [List.map_eq_nil_iff] at h
    rw [h] at hlen
    simp at hlen
  unfold IPAddr.ParseIP
  rw [hfind]
  simp only [if_true]
  unfold parseIPv4
  rw [htext, splitChars_joinWith '.' _ hne hpieces,
    mapM_map_eq_some _ parseOctet octets (fun o ho => parseOctet_toDigits o (hrange o ho))]
  simp [hlen]

theorem digitChar_hex_not_sep (d : Nat) (h : d < 16) :
    Nat.digitChar d ≠ ':' ∧ Nat.digitChar d ≠ '.' ∧ Nat.digitChar d ≠ '/' := by
  interval_cases d <;> decide

theorem toDigits_hex_not_sep (g : Nat) :
    ∀ c ∈ Nat.toDigits 16 g, c ≠ ':' ∧ c ≠ '.' ∧ c ≠ '/' :=
  toDigitsCore_forall 16 (fun c => c ≠ ':' ∧ c ≠ '.' ∧ c ≠ '/') digitChar_hex_not_sep
    (by decide) (g + 1) g [] (by simp)

theorem zeroRun_le_length (groups : List Nat) : zeroRun groups ≤ groups.length := by
  induction groups with
  | nil => simp [zeroRun]
  | cons g rest ih =>
    cases g with
    | zero => simp only [zeroRun, List.length_cons]; omega
    | succ g => simp [zeroRun]

theorem take_zeroRun (groups : List Nat) :
    groups.take (zeroRun groups) = List.replicate (zeroRun groups) 0 := by
  induction groups with
  | nil => simp [zeroRun]
  | cons g rest ih =>
    cases g with
    | zero => simp only [zeroRun, List.take_succ_cons, List.replicate_succ, ih]
    | succ g => simp [zeroRun]

/-- The run found by `longestZeroRun` lies inside the list and consists of
zero groups. -/
theorem longestZeroRun_spec (groups : List Nat) :
    ∀ i : Nat, i ≤ (longestZeroRun groups i).1 ∨ (longestZeroRun groups i).2 = 0 := by
  induction groups with
  | nil => intro i; right; rfl
  | cons g rest ih =>
    intro i
    unfold longestZeroRun
    simp only
    split_ifs with h
    · left; exact Nat.le_refl _
    · rcases ih (i + 1) with h1 | h1
      · left; omega
      · right; exact h1

theorem longestZeroRun_zeros (groups : List Nat) :
    ∀ i : Nat, (longestZeroRun groups i).1 - i + (longestZeroRun groups i).2 ≤ groups.length ∧
      (groups.drop ((longestZeroRun groups i).1 - i)).take (longestZeroRun groups i).2
        = List.replicate (longestZeroRun groups i).2 0 := by
  induction groups with
  | nil => intro i; simp [longestZeroRun]
  | cons g rest ih =>
    intro i
    unfold longestZeroRun
    simp only
    split_ifs with h
    · simp only [Nat.sub_self, Nat.zero_add, List.drop_zero]
      exact ⟨zeroRun_le_length _, take_zeroRun _⟩
    · obtain ⟨h1, h2⟩ := ih (i + 1)
      rcases longestZeroRun_spec rest (i + 1) with h3 | h3
      · have hsub : (longestZeroRun rest (i + 1)).1 - i
            = ((longestZeroRun rest (i + 1)).1 - (i + 1)) + 1 := by omega
        rw [hsub, List.drop_succ_cons]
        exact ⟨by simp only [List.length_cons]; omega, h2⟩
      · rw [h3]
        simp only [List.take_zero, List.replicate_zero, and_true]
        rw [h3] at h1
        simp only [List.length_cons]
        omega

theorem splitDoubleColon_append (p rest : List Char) (hp : ':' ∉ p) :
    splitDoubleColon (p ++ rest)
      = (splitDoubleColon rest).map fun r => (p ++ r.1, r.2) := by
  induction p with
  | nil => cases h : splitDoubleColon rest <;> simp [h]
  | cons d p ih =>
    have hd : d ≠ ':' := fun h => hp (by simp [h])
    have hp2 : ':' ∉ p := fun h => hp (List.mem_cons_of_mem _ h)
    rw [List.cons_append, splitDoubleColon, if_neg (fun h => hd h.1), ih hp2]
    cases h : splitDoubleColon rest <;> simp

theorem splitDoubleColon_colon_cons (d : Char) (rest : List Char) (hd : d ≠ ':') :
    splitDoubleColon (':' :: d :: rest)
      = (splitDoubleColon (d :: rest)).map fun r => (':' :: r.1, r.2) := by
  rw [splitDoubleColon, if_neg]
  intro h
  simp only [List.head?_cons, Option.some.injEq] at h
  exact hd h.2

theorem splitDoubleColon_colon_colon (rest : List Char) :
    splitDoubleColon (':' :: ':' :: rest) = some ([], rest) := by
  rw [splitDoubleColon, if_pos ⟨rfl, rfl⟩]
  rfl

theorem splitDoubleColon_joinWith_append (pieces : List (List Char)) (tail : List Char)
    (hp : ∀ p ∈ pieces, p ≠ [] ∧ ':' ∉ p) :
    splitDoubleColon (joinWith ':' pieces ++ tail)
      = (splitDoubleColon tail).map fun r => (joinWith ':' pieces ++ r.1, r.2) := by
  induction pieces with
  | nil => cases h : splitDoubleColon tail <;> simp [joinWith, h]
  | cons p rest ih =>
    cases rest with
    | nil =>
      rw [joinWith]
      exact splitDoubleColon_append p tail (hp p (by simp)).2
    | cons q rest =>
      have hq := hp q (by simp)
      have ih2 := ih (fun x hx => hp x (List.mem_cons_of_mem _ hx))
      rw [joinWith, List.append_assoc, List.cons_append,
        splitDoubleColon_append p _ (hp p (by simp)).2]
      cases q with
      | nil => exact absurd rfl hq.1
      | cons d q =>
        have hd : d ≠ ':' := fun h => hq.2 (by simp [h])
        have hhead : ∃ t, joinWith ':' ((d :: q) :: rest) ++ tail = d :: t := by
          cases rest with
          | nil => exact ⟨q ++ tail, by simp [joinWith]⟩
          | cons r rest => exact ⟨_, by rw [joinWith]; rfl⟩
        obtain ⟨t, ht⟩ := hhead
        rw [ht, splitDoubleColon_colon_cons d t hd, ← ht, ih2]
        cases h : splitDoubleColon tail <;> simp

theorem splitDoubleColon_joinWith (pieces : List (List Char))
    (hp : ∀ p ∈ pieces, p ≠ [] ∧ ':' ∉ p) :
    splitDoubleColon (joinWith ':' pieces) = none := by
  have h := splitDoubleColon_joinWith_append pieces [] hp
  rw [List.append_nil] at h
  rw [h]
  rfl

theorem splitDoubleColon_joinWith_colons (pieces : List (List Char)) (after : List Char)
    (hp : ∀ p ∈ pieces, p ≠ [] ∧ ':' ∉ p) :
    splitDoubleColon (joinWith ':' pieces ++ [':', ':'] ++ after)
      = some (joinWith ':' pieces, after) := by
  rw [List.append_assoc, splitDoubleColon_joinWith_append pieces _ hp]
  rw [show [':', ':'] ++ after = ':' :: ':' :: after from rfl, splitDoubleColon_colon_colon]
  simp

theorem hexPieces (groups : List Nat) :
    ∀ p ∈ groups.map (fun g => Nat.toDigits 16 g), p ≠ [] ∧ ':' ∉ p := by
  intro p hp
  obtain ⟨g, _, rfl⟩ := List.mem_map.mp hp
  exact ⟨toDigits_ne_nil 16 g, fun h => (toDigits_hex_not_sep g _ h).1 rfl⟩

theorem joinWith_eq_nil (sep : Char) (pieces : List (List Char))
    (hp : ∀ p ∈ pieces, p ≠ []) (h : joinWith sep pieces = []) : pieces = [] := by
  cases pieces with
  | nil => rfl
  | cons p rest =>
    cases rest with
    | nil => exact absurd (by simpa [joinWith] using h) (hp p (by simp))
    | cons q rest =>
      rw [joinWith] at h
      simp at h

/-- The colon-separated hexadecimal text of groups below 65536 is read back
as these groups. -/
theorem parseGroups_joinWith (groups : List Nat) (hrange : ∀ g ∈ groups, g < 65536) :
    parseGroups (joinWith ':' (groups.map fun g => Nat.toDigits 16 g)) = some groups := by
  unfold parseGroups
  cases groups with
  | nil => rfl
  | cons g rest =>
    have hne : joinWith ':' ((g :: rest).map fun g => Nat.toDigits 16 g) ≠ [] := by
      intro h
      have := joinWith_eq_nil ':' _ (fun p hp => (hexPieces (g :: rest) p hp).1) h
      simp at this
    rw [if_neg (by simpa using hne),
      splitChars_joinWith ':' _ (by simp) (fun p hp => (hexPieces (g :: rest) p hp).2),
      mapM_map_eq_some _ parseGroup (g :: rest)
        (fun x hx => parseGroup_toDigits x (hrange x hx))]

theorem IPAddr.IPString_v6_data (groups : List Nat) :
    (IPAddr.IPString (IPAddr.v6 groups)).data =
      if (longestZeroRun groups 0).2 ≥ 2 then
        joinWith ':' ((groups.take (longestZeroRun groups 0).1).map fun g => Nat.toDigits 16 g)
          ++ [':', ':']
          ++ joinWith ':' ((groups.drop
              ((longestZeroRun groups 0).1 + (longestZeroRun groups 0).2)).map
                fun g => Nat.toDigits 16 g)
      else joinWith ':' (groups.map fun g => Nat.toDigits 16 g) := by
  unfold IPAddr.IPString
  simp only
  split_ifs <;> rfl

/-- No character of the text of an IPv6 address is a dot or a slash. -/
theorem IPAddr.IPString_v6_chars (groups : List Nat) :
    ∀ c ∈ (IPAddr.IPString (IPAddr.v6 groups)).data, c ≠ '.' ∧ c ≠ '/' := by
  have hjoin : ∀ gs : List Nat,
      ∀ c ∈ joinWith ':' (gs.map fun g => Nat.toDigits 16 g), c ≠ '.' ∧ c ≠ '/' :=
    fun gs => mem_joinWith_map (fun g => Nat.toDigits 16 g) (fun c => c ≠ '.' ∧ c ≠ '/') ':'
      gs (by decide) (fun g _ c hc => (toDigits_hex_not_sep g c hc).2)
  intro c hc
  rw [IPAddr.IPString_v6_data] at hc
  split_ifs at hc
  · rcases List.mem_append.mp hc with h | h
    · rcases List.mem_append.mp h with h | h
      · exact hjoin _ c h
      · have hcolon : c = ':' := by simpa using h
        rw [hcolon]; decide
    · exact hjoin _ c h
  · exact hjoin _ c hc

/-- The text of an IPv6 address with eight groups below 65536 is read back as
that address. -/
theorem IPAddr.ParseIP_IPString_v6 (groups : List Nat) (hlen : groups.length = 8)
    (hrange : ∀ g ∈ groups, g < 65536) :
    IPAddr.ParseIP (IPAddr.IPString (IPAddr.v6 groups)) = some (IPAddr.v6 groups) := by
  have hchars := IPAddr.IPString_v6_chars groups
  have hdata := IPAddr.IPString_v6_data groups
  have hcolon : ':' ∈ (IPAddr.IPString (IPAddr.v6 groups)).data := by
    rw [hdata]
    split_ifs
    · simp
    · rcases groups with _ | ⟨a, _ | ⟨b, rest⟩⟩
      · simp at hlen
      · simp at hlen
      · exact sep_mem_joinWith ':' _ _ _
  have hfind : (IPAddr.IPString (IPAddr.v6 groups)).data.find? (fun c => c = '.' ∨ c = ':')
      = some ':' := by
    apply find?_dot_or_colon ':' _ (Or.inr rfl) _ hcolon
    intro c hc hsep
    rcases hsep with rfl | rfl
    · exact absurd rfl (hchars _ hc).1
    · rfl
  have hparse : IPAddr.ParseIP (IPAddr.IPString (IPAddr.v6 groups))
      = parseIPv6 (IPAddr.IPString (IPAddr.v6 groups)).data := by
    unfold IPAddr.ParseIP
    rw [hfind]
    exact if_neg (by decide)
  rw [hparse, hdata]
  obtain ⟨hbound, hzeros⟩ := longestZeroRun_zeros groups 0
  simp only [Nat.sub_zero] at hbound hzeros
  generalize longestZeroRun groups 0 = run at hbound hzeros ⊢
  unfold parseIPv6
  split_ifs with hrun
  · rw [splitDoubleColon_joinWith_colons _ _ (hexPieces _)]
    simp only
    rw [parseGroups_joinWith _ (fun g hg => hrange g (List.mem_of_mem_take hg)),
      parseGroups_joinWith _ (fun g hg => hrange g (List.mem_of_mem_drop hg))]
    simp only
    have hl : (groups.take run.1).length + (groups.drop (run.1 + run.2)).length
        = 8 - run.2 := by
      rw [List.length_take, List.length_drop, hlen]
      omega
    have hsplit : groups.take run.1 ++ List.replicate run.2 0
        ++ groups.drop (run.1 + run.2) = groups := by
      rw [← hzeros]
      have h1 : groups.drop (run.1 + run.2) = (groups.drop run.1).drop run.2 := by
        rw [List.drop_drop, Nat.add_comm]
      rw [h1, List.append_assoc, List.take_append_drop, List.take_append_drop]
    rw [hl, if_pos (by omega)]
    have h8 : 8 - (8 - run.2) = run.2 := by
      rw [hlen] at hbound
      omega
    rw [h8, hsplit]
  · rw [splitDoubleColon_joinWith _ (hexPieces _)]
    simp only
    rw [parseGroups_joinWith _ hrange]
    simp [hlen]

/-- The instance `goIPText` reads back the text of every valid address, and
the text holds no slash. -/
theorem goIPText_reads_back (ip : IPAddr) (hip : ip.valid = true) :
    goIPText.ParseIP (goIPText.IPString ip) = some ip ∧ '/' ∉ (goIPText.IPString ip).data := by
  cases ip with
  | v4 octets =>
    simp only [IPAddr.valid, Bool.and_eq_true, decide_eq_true_eq, List.all_eq_true] at hip
    refine ⟨IPAddr.ParseIP_IPString_v4 octets hip.1 hip.2, ?_⟩
    intro h
    rcases IPAddr.IPString_v4_chars octets _ h with h1 | h1
    · exact absurd h1 (by decide)
    · exact absurd h1 (by decide)
  | v6 groups =>
    simp only [IPAddr.valid, Bool.and_eq_true, decide_eq_true_eq, List.all_eq_true] at hip
    refine ⟨IPAddr.ParseIP_IPString_v6 groups hip.1.1 hip.1.2, ?_⟩
    intro h
    exact (IPAddr.IPString_v6_chars groups _ h).2 rfl

/-- C13: for every `Net` with a valid address and a prefix length valid for
the family of the address, `MarshalJSON` yields the quoted text
`<ip>/<prefixlen>`, and `UnmarshalJSON` of that output into a fresh `Net`
gives the same `Net`, hence one with the same `String()`; the zero `Net`
marshals to the quoted `<nil>`, and unmarshalling that leaves the address
absent. -/
theorem Net.MarshalJSON_roundtrip (ip : IPAddr) (prefixLength : Nat)
    (hip : ip.valid = true) (hlen : prefixLength ≤ ip.bits) :
    Net.MarshalJSON goIPText { IP := some ip, PrefixLength := prefixLength }
      = "\"" ++ (ip.IPString ++ "/" ++ Nat.repr prefixLength) ++ "\"" ∧
    Net.UnmarshalJSON goIPText
        (Net.MarshalJSON goIPText { IP := some ip, PrefixLength := prefixLength })
      = some { IP := some ip, PrefixLength := prefixLength } ∧
    (∀ n, Net.UnmarshalJSON goIPText
        (Net.MarshalJSON goIPText { IP := some ip, PrefixLength := prefixLength }) = some n →
      Net.GoString goIPText n
        = Net.GoString goIPText { IP := some ip, PrefixLength := prefixLength }) ∧
    Net.MarshalJSON goIPText { IP := none, PrefixLength := 0 } = "\"<nil>\"" ∧
    (∃ n, Net.UnmarshalJSON goIPText
        (Net.MarshalJSON goIPText { IP := none, PrefixLength := 0 }) = some n ∧ n.IP = none) :=
  Net.roundtrip_of_reads_back goIPText ip prefixLength hlen (goIPText_reads_back ip hip).1
    (goIPText_reads_back ip hip).2

/-- C13 at the two vectors of `TestNet`, 192.168.0.1 with prefix length 32 and
2001:db8::1 with prefix length 48: both are valid, and each is read back from
its JSON text. -/
theorem Net.MarshalJSON_roundtrip_witness :
    (IPAddr.v4 [192, 168, 0, 1]).valid = true ∧
    (IPAddr.v6 [0x2001, 0xdb8, 0, 0, 0, 0, 0, 1]).valid = true ∧
    Net.UnmarshalJSON goIPText
        (Net.MarshalJSON goIPText
          { IP := some (IPAddr.v4 [192, 168, 0, 1]), PrefixLength := 32 })
      = some { IP := some (IPAddr.v4 [192, 168, 0, 1]), PrefixLength := 32 } ∧
    Net.UnmarshalJSON goIPText
        (Net.MarshalJSON goIPText
          { IP := some (IPAddr.v6 [0x2001, 0xdb8, 0, 0, 0, 0, 0, 1]), PrefixLength := 48 })
      = some { IP := some (IPAddr.v6 [0x2001, 0xdb8, 0, 0, 0, 0, 0, 1]), PrefixLength := 48 } :=
  ⟨by decide, by decide,
    (Net.MarshalJSON_roundtrip (IPAddr.v4 [192, 168, 0, 1]) 32 (by decide) (by decide)).2.1,
    (Net.MarshalJSON_roundtrip (IPAddr.v6 [0x2001, 0xdb8, 0, 0, 0, 0, 0, 1]) 48 (by decide)
      (by decide)).2.1⟩

end dtap
